import Mathlib

/-!
Shallow embedding of the RuCOS kernel (src/kernel/src/kernel.rs and
src/kernel/src/task.rs), with proofs about the scheduler, the task
state machine and the kernel invariants.

The generic parameters of the Rust code are instantiated as follows:
`SP` (opaque stack pointer) and `TICK` (tick counter) both become `Nat`;
the const generic `MAX_NUM_TASKS` becomes a field of the kernel record
fixed at construction time.  Rust panics are modelled by returning
`none` from an `Option`-valued function.
-/

namespace RuCOS

/-- Task states (`TaskState` in task.rs). -/
inductive TaskState
  | Pending
  | Ready
  | Running
deriving DecidableEq, Repr

/-- Task pend reasons (`TaskPendReason<TICK>` in task.rs). -/
inductive TaskPendReason
  | NotPending
  | Suspended
  | Sleep (timeout : Nat)
deriving DecidableEq, Repr

/-- Task control block (`Task<SP, TICK>` in task.rs). -/
structure Task where
  id : Nat
  priority : Nat
  stack_ptr : Nat
  state : TaskState
  pend : TaskPendReason
deriving DecidableEq, Repr

/-- `Task::is_runnable` in task.rs. -/
def Task.is_runnable (t : Task) : Bool :=
  t.state == TaskState.Ready || t.state == TaskState.Running

/-- Kernel state (`Kernel<SP, TICK, MAX_NUM_TASKS>` in kernel.rs).
`max_num_tasks` embeds the const generic `MAX_NUM_TASKS`. -/
structure Kernel where
  is_running : Bool
  tick_counter : Nat
  max_num_tasks : Nat
  task_list : List Task
  curr_task_id : Option Nat
  next_task_id : Option Nat
deriving DecidableEq, Repr

/-- `Kernel::new` in kernel.rs. -/
def Kernel.new (max_num_tasks : Nat) : Kernel :=
  { is_running := false
    tick_counter := 0
    max_num_tasks := max_num_tasks
    task_list := []
    curr_task_id := none
    next_task_id := none }

/-- `Kernel::find_task` in kernel.rs, read-only part: the first task in
the list with the given id, `none` when the `expect` would panic. -/
def find_task (k : Kernel) (id : Nat) : Option Task :=
  k.task_list.find? (fun t => t.id == id)

/-- `Iterator::position`: index of the first element satisfying `p`. -/
def position (p : Task → Bool) : List Task → Option Nat
  | [] => none
  | t :: ts => if p t then some 0 else (position p ts).map (fun i => i + 1)

/-- `Kernel::find_task_idx` in kernel.rs: the position of the first task
with the given id, `none` when the `expect` would panic. -/
def find_task_idx (k : Kernel) (id : Nat) : Option Nat :=
  position (fun t => t.id == id) k.task_list

/-- Mutation through `Kernel::find_task` in kernel.rs: apply `f` to the
first task with the given id, `none` when the `expect` would panic. -/
def modify_task (l : List Task) (id : Nat) (f : Task → Task) : Option (List Task) :=
  match l with
  | [] => none
  | t :: ts =>
    if t.id = id then some (f t :: ts)
    else (modify_task ts id f).map (fun ts2 => t :: ts2)

/-- The effect of `Kernel::update_pending_tasks` (kernel.rs) on one task:
a task sleeping until `timeout` is made Ready once `tick ≥ timeout`. -/
def sweep_task (tick : Nat) (t : Task) : Task :=
  match t.pend with
  | TaskPendReason.Sleep timeout =>
    if tick ≥ timeout then
      { t with state := TaskState.Ready, pend := TaskPendReason.NotPending }
    else t
  | _ => t

/-- `Kernel::update_pending_tasks` in kernel.rs. -/
def update_pending_tasks (k : Kernel) : Kernel :=
  { k with task_list := k.task_list.map (sweep_task k.tick_counter) }

/-- The loop body of `Kernel::find_highest_priority_runnable_task`
(kernel.rs): fold step keeping the runnable task of strictly smallest
priority seen so far (`task < other` compares priorities). -/
def pick_task (acc : Option Task) (t : Task) : Option Task :=
  if t.is_runnable then
    match acc with
    | some other => if t.priority < other.priority then some t else some other
    | none => some t
  else acc

/-- `Kernel::find_highest_priority_runnable_task` in kernel.rs. -/
def find_highest_priority_runnable_task (k : Kernel) : Option Nat :=
  (k.task_list.foldl pick_task none).map (fun t => t.id)

/-- The `match` in `Kernel::scheduler` (kernel.rs) computing the new
`next_task_id` from the swept state. -/
def select_next (k1 : Kernel) : Option Nat :=
  match find_highest_priority_runnable_task k1 with
  | some next_id =>
    match k1.curr_task_id with
    | some curr_id => if curr_id = next_id then none else some next_id
    | none => some next_id
  | none => none

/-- `Kernel::scheduler` in kernel.rs.  Returns the updated kernel and the
boolean verdict `!(next_task_id == None)`. -/
def scheduler (k : Kernel) : Kernel × Bool :=
  if !k.is_running then (k, false)
  else
    let k1 := update_pending_tasks k
    let nx := select_next k1
    ({ k1 with next_task_id := nx }, nx.isSome)

/-- `Kernel::create` in kernel.rs.  `none` models the panics (duplicate
task id, or the `heapless::Vec` push failing at capacity). -/
def create (k : Kernel) (id priority stack_ptr : Nat) : Option (Kernel × Bool) :=
  if k.task_list.any (fun t => t.id == id) then none
  else if k.max_num_tasks ≤ k.task_list.length then none
  else
    let t : Task :=
      { id := id
        priority := priority
        stack_ptr := stack_ptr
        state := TaskState.Ready
        pend := TaskPendReason.NotPending }
    some (scheduler { k with task_list := k.task_list ++ [t] })

/-- `Kernel::delete` in kernel.rs.  `none` models the panics (no current
task id, or the target id does not correspond to a task). -/
def delete (k : Kernel) (id : Option Nat) : Option (Kernel × Bool) :=
  match k.curr_task_id with
  | none => none
  | some curr_id =>
    match find_task_idx k curr_id with
    | none => none
    | some curr_task_idx =>
      let o_task_idx : Option Nat :=
        match id with
        | some i => find_task_idx k i
        | none => some curr_task_idx
      match o_task_idx with
      | none => none
      | some task_idx =>
        let k1 := { k with task_list := k.task_list.eraseIdx task_idx }
        let k2 := if curr_task_idx = task_idx then { k1 with curr_task_id := none } else k1
        some (scheduler k2)

/-- Fields written by the first phase of `Kernel::handle_context_switch`
(kernel.rs) on the outgoing task: optional stack pointer update, then
demotion of Running to Ready. -/
def save_outgoing (updated_stack_ptr : Option Nat) (t : Task) : Task :=
  let t1 :=
    match updated_stack_ptr with
    | some sp => { t with stack_ptr := sp }
    | none => t
  { t1 with
      state :=
        match t1.state with
        | TaskState.Running => TaskState.Ready
        | s => s }

/-- `Kernel::handle_context_switch` in kernel.rs.  Returns the updated
kernel and the stack pointer of the incoming task; `none` models the
panics (current or next task missing, or `next_task_id` none). -/
def handle_context_switch (k : Kernel) (updated_stack_ptr : Option Nat) :
    Option (Kernel × Nat) :=
  let step1 : Option (List Task) :=
    match k.curr_task_id with
    | some curr_id => modify_task k.task_list curr_id (save_outgoing updated_stack_ptr)
    | none => some k.task_list
  match step1 with
  | none => none
  | some l1 =>
    match k.next_task_id with
    | none => none
    | some next_id =>
      match modify_task l1 next_id (fun t => { t with state := TaskState.Running }) with
      | none => none
      | some l2 =>
        match l2.find? (fun t => t.id == next_id) with
        | none => none
        | some next_task =>
          some ({ k with
                    task_list := l2
                    curr_task_id := some next_id
                    next_task_id := none },
                next_task.stack_ptr)

/-- `Kernel::start` in kernel.rs.  `none` models the panics (already
running, or no runnable task). -/
def start (k : Kernel) : Option (Kernel × Nat) :=
  if k.is_running then none
  else
    let p := scheduler { k with is_running := true }
    if p.2 then handle_context_switch p.1 none else none

/-- `Kernel::sleep` in kernel.rs.  `none` models the panics (kernel not
running, current task missing). -/
def sleep (k : Kernel) (delay : Nat) : Option (Kernel × Bool) :=
  let new_tick_counter := k.tick_counter + delay
  match k.curr_task_id with
  | none => none
  | some curr_id =>
    match modify_task k.task_list curr_id
        (fun t => { t with
                      state := TaskState.Pending
                      pend := TaskPendReason.Sleep new_tick_counter }) with
    | none => none
    | some l => some (scheduler { k with task_list := l })

/-- `Kernel::suspend` in kernel.rs. -/
def suspend (k : Kernel) (id : Option Nat) : Option (Kernel × Bool) :=
  let target : Option Nat :=
    match id with
    | some i => some i
    | none => k.curr_task_id
  match target with
  | none => none
  | some tid =>
    match modify_task k.task_list tid
        (fun t => { t with
                      state := TaskState.Pending
                      pend := TaskPendReason.Suspended }) with
    | none => none
    | some l => some (scheduler { k with task_list := l })

/-- `Kernel::resume` in kernel.rs. -/
def resume (k : Kernel) (id : Nat) : Option (Kernel × Bool) :=
  match modify_task k.task_list id
      (fun t => { t with
                    state := TaskState.Ready
                    pend := TaskPendReason.NotPending }) with
  | none => none
  | some l => some (scheduler { k with task_list := l })

/-- `Kernel::tick_update` in kernel.rs (never panics). -/
def tick_update (k : Kernel) (elapsed : Nat) : Kernel × Bool :=
  scheduler { k with tick_counter := k.tick_counter + elapsed }

/-- One API call of the kernel, with its arguments. -/
inductive Op
  | create (id priority stack_ptr : Nat)
  | delete (id : Option Nat)
  | start
  | sleep (delay : Nat)
  | suspend (id : Option Nat)
  | resume (id : Nat)
  | tick_update (elapsed : Nat)
  | handle_context_switch (updated_stack_ptr : Option Nat)
deriving DecidableEq, Repr

/-- State effect of one API call; `none` when the call faults. -/
def exec (k : Kernel) : Op → Option Kernel
  | Op.create id p sp => (create k id p sp).map Prod.fst
  | Op.delete id => (delete k id).map Prod.fst
  | Op.start => (start k).map Prod.fst
  | Op.sleep d => (sleep k d).map Prod.fst
  | Op.suspend id => (suspend k id).map Prod.fst
  | Op.resume id => (resume k id).map Prod.fst
  | Op.tick_update e => some (tick_update k e).fst
  | Op.handle_context_switch sp => (handle_context_switch k sp).map Prod.fst

/-- States reachable from a freshly constructed kernel by non-faulting
API calls. -/
inductive Reachable : Kernel → Prop
  | base (max_num_tasks : Nat) : Reachable (Kernel.new max_num_tasks)
  | step {k k2 : Kernel} (op : Op) : Reachable k → exec k op = some k2 → Reachable k2

/-! ### Basic lemmas about the list helpers -/

theorem modify_task_eq_none {l : List Task} {id : Nat} {f : Task → Task} :
    modify_task l id f = none ↔ ∀ t ∈ l, t.id ≠ id := by
  induction l with
  | nil => simp [modify_task]
  | cons a as ih =>
    by_cases ha : a.id = id
    · simp [modify_task, ha]
    · simp [modify_task, ha, Option.map_eq_none', ih]

theorem modify_task_split {l : List Task} {id : Nat} {f : Task → Task} {l2 : List Task}
    (h : modify_task l id f = some l2) :
    ∃ l₁ t l₃, l = l₁ ++ t :: l₃ ∧ t.id = id ∧ (∀ u ∈ l₁, u.id ≠ id) ∧
      l2 = l₁ ++ f t :: l₃ := by
  induction l generalizing l2 with
  | nil => simp [modify_task] at h
  | cons a as ih =>
    by_cases ha : a.id = id
    · refine ⟨[], a, as, by simp, ha, by simp, ?_⟩
      simp [modify_task, ha] at h
      simp [h.symm]
    · simp only [modify_task, if_neg ha, Option.map_eq_some'] at h
      obtain ⟨as2, h1, h2⟩ := h
      obtain ⟨l₁, t, l₃, rfl, hid, hl₁, rfl⟩ := ih h1
      exact ⟨a :: l₁, t, l₃, by simp, hid, by
        intro u hu
        rcases List.mem_cons.mp hu with rfl | hu
        · exact ha
        · exact hl₁ u hu, by simp [h2.symm]⟩

theorem modify_task_mem {l : List Task} {id : Nat} {f : Task → Task} {l2 : List Task}
    (h : modify_task l id f = some l2) :
    ∀ u ∈ l2, u ∈ l ∨ ∃ t ∈ l, t.id = id ∧ u = f t := by
  obtain ⟨l₁, t, l₃, rfl, hid, hl₁, rfl⟩ := modify_task_split h
  intro u hu
  rcases List.mem_append.mp hu with hu | hu
  · exact Or.inl (List.mem_append.mpr (Or.inl hu))
  · rcases List.mem_cons.mp hu with rfl | hu
    · exact Or.inr ⟨t, by simp, hid, rfl⟩
    · exact Or.inl (by simp [hu])

theorem modify_task_map_id {l : List Task} {id : Nat} {f : Task → Task} {l2 : List Task}
    (hf : ∀ t, (f t).id = t.id) (h : modify_task l id f = some l2) :
    l2.map Task.id = l.map Task.id := by
  obtain ⟨l₁, t, l₃, rfl, hid, hl₁, rfl⟩ := modify_task_split h
  simp [hf]

theorem modify_task_isSome {l : List Task} {id : Nat} (f : Task → Task)
    (h : ∃ t ∈ l, t.id = id) : ∃ l2, modify_task l id f = some l2 := by
  cases hm : modify_task l id f with
  | none =>
    obtain ⟨t, ht, hid⟩ := h
    exact absurd hid (modify_task_eq_none.mp hm t ht)
  | some l2 => exact ⟨l2, rfl⟩

theorem find?_id_modify {l : List Task} {id : Nat} {f : Task → Task} {l2 : List Task}
    (h : modify_task l id f = some l2) (hf : ∀ t, (f t).id = t.id) :
    ∃ t, l.find? (fun u => u.id == id) = some t ∧
      l2.find? (fun u => u.id == id) = some (f t) := by
  induction l generalizing l2 with
  | nil => simp [modify_task] at h
  | cons a as ih =>
    by_cases ha : a.id = id
    · simp [modify_task, ha] at h
      exact ⟨a, by simp [List.find?_cons, ha], by simp [h.symm, List.find?_cons, hf, ha]⟩
    · simp only [modify_task, if_neg ha, Option.map_eq_some'] at h
      obtain ⟨as2, h1, h2⟩ := h
      obtain ⟨t, ht1, ht2⟩ := ih h1
      refine ⟨t, ?_, ?_⟩
      · simpa [List.find?_cons, ha] using ht1
      · simp [h2.symm, List.find?_cons, ha, ht2]

theorem position_split {p : Task → Bool} {l : List Task} {i : Nat}
    (h : position p l = some i) :
    ∃ l₁ t l₃, l = l₁ ++ t :: l₃ ∧ l₁.length = i ∧ p t = true ∧
      ∀ u ∈ l₁, p u = false := by
  induction l generalizing i with
  | nil => simp [position] at h
  | cons a as ih =>
    cases ha : p a with
    | true =>
      refine ⟨[], a, as, by simp, ?_, ha, by simp⟩
      simp [position, ha] at h
      simp [h]
    | false =>
      simp [position, ha] at h
      obtain ⟨j, h1, h2⟩ := h
      obtain ⟨l₁, t, l₃, rfl, hlen, hpt, hl₁⟩ := ih h1
      refine ⟨a :: l₁, t, l₃, by simp, by simp [hlen, h2], hpt, ?_⟩
      intro u hu
      rcases List.mem_cons.mp hu with rfl | hu
      · exact ha
      · exact hl₁ u hu

theorem eraseIdx_append_length {l₁ : List Task} {t : Task} {l₃ : List Task} :
    (l₁ ++ t :: l₃).eraseIdx l₁.length = l₁ ++ l₃ := by
  induction l₁ with
  | nil => simp [List.eraseIdx]
  | cons a as ih => simpa [List.eraseIdx] using ih

/-! ### Characterization of the scheduler's linear selection scan -/

/-- Reference recursion for the selection scan: the first runnable task of
minimal priority (ties to the earlier task). -/
def best_of : List Task → Option Task
  | [] => none
  | t :: ts =>
    if t.is_runnable then
      match best_of ts with
      | some u => if u.priority < t.priority then some u else some t
      | none => some t
    else best_of ts

/-- Left-biased minimum of two optional tasks by priority. -/
def merge_best : Option Task → Option Task → Option Task
  | none, b => b
  | some a, none => some a
  | some a, some b => if b.priority < a.priority then some b else some a

theorem merge_best_none_left (b : Option Task) : merge_best none b = b := by
  cases b <;> rfl

theorem merge_best_none_right (a : Option Task) : merge_best a none = a := by
  cases a <;> rfl

theorem merge_best_assoc (a b c : Option Task) :
    merge_best (merge_best a b) c = merge_best a (merge_best b c) := by
  cases a with
  | none => rw [merge_best_none_left, merge_best_none_left]
  | some a =>
    cases b with
    | none => rw [merge_best_none_right, merge_best_none_left]
    | some b =>
      cases c with
      | none => rw [merge_best_none_right, merge_best_none_right]
      | some c =>
        by_cases h1 : b.priority < a.priority
        · have e1 : merge_best (some a) (some b) = some b := by simp [merge_best, h1]
          by_cases h2 : c.priority < b.priority
          · have e2 : merge_best (some b) (some c) = some c := by simp [merge_best, h2]
            rw [e1, e2]
            simp [merge_best, h2, Nat.lt_trans h2 h1]
          · have e2 : merge_best (some b) (some c) = some b := by simp [merge_best, h2]
            rw [e1, e2, e1]
        · have e1 : merge_best (some a) (some b) = some a := by simp [merge_best, h1]
          by_cases h2 : c.priority < b.priority
          · have e2 : merge_best (some b) (some c) = some c := by simp [merge_best, h2]
            rw [e1, e2]
          · have e2 : merge_best (some b) (some c) = some b := by simp [merge_best, h2]
            rw [e1, e2, e1]
            simp [merge_best, show ¬c.priority < a.priority by omega]

theorem pick_task_eq_merge (acc : Option Task) (t : Task) :
    pick_task acc t = merge_best acc (if t.is_runnable then some t else none) := by
  by_cases h : t.is_runnable
  · cases acc <;> simp [pick_task, merge_best, h]
  · cases acc <;> simp [pick_task, merge_best_none_right, h]

theorem best_of_cons (t : Task) (ts : List Task) :
    best_of (t :: ts) = merge_best (if t.is_runnable then some t else none) (best_of ts) := by
  by_cases h : t.is_runnable
  · cases hb : best_of ts <;> simp [best_of, h, hb, merge_best]
  · simp [best_of, h, merge_best]

theorem foldl_pick_eq (l : List Task) :
    ∀ acc : Option Task, l.foldl pick_task acc = merge_best acc (best_of l) := by
  induction l with
  | nil =>
    intro acc
    cases acc <;> rfl
  | cons t ts ih =>
    intro acc
    rw [List.foldl_cons, ih, pick_task_eq_merge, merge_best_assoc, ← best_of_cons]

theorem find_highest_eq_best_of (k : Kernel) :
    find_highest_priority_runnable_task k = (best_of k.task_list).map (fun t => t.id) := by
  rw [find_highest_priority_runnable_task, foldl_pick_eq]
  rfl

theorem best_of_eq_none {l : List Task} :
    best_of l = none ↔ ∀ t ∈ l, t.is_runnable = false := by
  induction l with
  | nil => simp [best_of]
  | cons t ts ih =>
    rw [best_of_cons]
    by_cases h : t.is_runnable
    · rw [if_pos h]
      constructor
      · intro hn
        cases hb : best_of ts <;> rw [hb] at hn <;> simp only [merge_best] at hn
        · exact absurd hn (by simp)
        · split at hn <;> simp at hn
      · intro hall
        exact absurd (hall t (by simp)) (by simp [h])
    · rw [if_neg h, merge_best_none_left, ih]
      simp [List.forall_mem_cons, show t.is_runnable = false by simpa using h]

theorem best_of_split {l : List Task} {t : Task} (h : best_of l = some t) :
    t.is_runnable = true ∧ ∃ l₁ l₃, l = l₁ ++ t :: l₃ ∧
      (∀ u ∈ l₁, u.is_runnable = true → t.priority < u.priority) ∧
      (∀ u ∈ l₃, u.is_runnable = true → t.priority ≤ u.priority) := by
  induction l generalizing t with
  | nil => simp [best_of] at h
  | cons a as ih =>
    rw [best_of_cons] at h
    by_cases ha : a.is_runnable
    · rw [if_pos ha] at h
      cases hb : best_of as with
      | none =>
        rw [hb, merge_best_none_right] at h
        injection h with h
        subst h
        refine ⟨ha, [], as, by simp, by simp, ?_⟩
        intro v hv hrv
        exact absurd (best_of_eq_none.mp hb v hv) (by simp [hrv])
      | some u =>
        rw [hb] at h
        obtain ⟨hru, l₁, l₃, heq, hlt, hle⟩ := ih hb
        subst heq
        simp only [merge_best] at h
        by_cases hcmp : u.priority < a.priority
        · rw [if_pos hcmp] at h
          injection h with h
          subst h
          refine ⟨hru, a :: l₁, l₃, by simp, ?_, hle⟩
          intro v hv hrv
          rcases List.mem_cons.mp hv with rfl | hv
          · exact hcmp
          · exact hlt v hv hrv
        · rw [if_neg hcmp] at h
          injection h with h
          subst h
          refine ⟨ha, [], l₁ ++ u :: l₃, by simp, by simp, ?_⟩
          intro v hv hrv
          rcases List.mem_append.mp hv with hv | hv
          · exact Nat.le_trans (Nat.not_lt.mp hcmp) (Nat.le_of_lt (hlt v hv hrv))
          · rcases List.mem_cons.mp hv with rfl | hv
            · exact Nat.not_lt.mp hcmp
            · exact Nat.le_trans (Nat.not_lt.mp hcmp) (hle v hv hrv)
    · rw [if_neg ha, merge_best_none_left] at h
      obtain ⟨hru, l₁, l₃, heq, hlt, hle⟩ := ih h
      subst heq
      refine ⟨hru, a :: l₁, l₃, by simp, ?_, hle⟩
      intro v hv hrv
      rcases List.mem_cons.mp hv with rfl | hv
      · exact absurd hrv (by simpa using ha)
      · exact hlt v hv hrv

theorem find_highest_mem {k : Kernel} {n : Nat}
    (h : find_highest_priority_runnable_task k = some n) :
    ∃ t ∈ k.task_list, t.id = n ∧ t.is_runnable = true := by
  rw [find_highest_eq_best_of, Option.map_eq_some'] at h
  obtain ⟨t, ht, rfl⟩ := h
  obtain ⟨hr, l₁, l₃, heq, hmin1, hmin2⟩ := best_of_split ht
  exact ⟨t, by simp [heq], rfl, hr⟩

theorem find_highest_isSome {k : Kernel} {t : Task}
    (ht : t ∈ k.task_list) (hr : t.is_runnable = true) :
    ∃ n, find_highest_priority_runnable_task k = some n := by
  rw [find_highest_eq_best_of]
  cases hb : best_of k.task_list with
  | none => exact absurd (best_of_eq_none.mp hb t ht) (by simp [hr])
  | some u => exact ⟨u.id, rfl⟩

/-! ### Lemmas about the wake sweep and the scheduler -/

theorem sweep_task_id (tick : Nat) (t : Task) : (sweep_task tick t).id = t.id := by
  rw [sweep_task]
  split <;> first | rfl | (split <;> rfl)

theorem sweep_task_priority (tick : Nat) (t : Task) :
    (sweep_task tick t).priority = t.priority := by
  rw [sweep_task]
  split <;> first | rfl | (split <;> rfl)

theorem sweep_task_stack_ptr (tick : Nat) (t : Task) :
    (sweep_task tick t).stack_ptr = t.stack_ptr := by
  rw [sweep_task]
  split <;> first | rfl | (split <;> rfl)

theorem sweep_task_running {tick : Nat} {t : Task}
    (h : (sweep_task tick t).state = TaskState.Running) : t.state = TaskState.Running := by
  rw [sweep_task] at h
  revert h
  split <;> intro h
  case _ => split at h <;> first | simp at h | exact h
  case _ => exact h

theorem sweep_task_wake {tick : Nat} {t : Task} {w : Nat}
    (hp : t.pend = TaskPendReason.Sleep w) (hw : w ≤ tick) :
    (sweep_task tick t).state = TaskState.Ready ∧
      (sweep_task tick t).pend = TaskPendReason.NotPending := by
  rw [sweep_task, hp]
  simp [hw]

theorem sweep_task_asleep {tick : Nat} {t : Task} {w : Nat}
    (hp : t.pend = TaskPendReason.Sleep w) (hw : tick < w) : sweep_task tick t = t := by
  rw [sweep_task, hp]
  simp [Nat.not_le.mpr hw]

theorem sweep_task_suspended {tick : Nat} {t : Task}
    (hp : t.pend = TaskPendReason.Suspended) : sweep_task tick t = t := by
  rw [sweep_task, hp]

theorem sweep_task_not_pending {tick : Nat} {t : Task}
    (hp : t.pend = TaskPendReason.NotPending) : sweep_task tick t = t := by
  rw [sweep_task, hp]

theorem update_pending_fields (k : Kernel) :
    (update_pending_tasks k).is_running = k.is_running ∧
      (update_pending_tasks k).tick_counter = k.tick_counter ∧
      (update_pending_tasks k).max_num_tasks = k.max_num_tasks ∧
      (update_pending_tasks k).curr_task_id = k.curr_task_id ∧
      (update_pending_tasks k).next_task_id = k.next_task_id := by
  simp [update_pending_tasks]

theorem scheduler_not_running {k : Kernel} (h : k.is_running = false) :
    scheduler k = (k, false) := by
  simp [scheduler, h]

theorem scheduler_running {k : Kernel} (h : k.is_running = true) :
    scheduler k =
      ({ update_pending_tasks k with
           next_task_id := select_next (update_pending_tasks k) },
        (select_next (update_pending_tasks k)).isSome) := by
  simp [scheduler, h]

theorem scheduler_fields (k : Kernel) :
    (scheduler k).1.is_running = k.is_running ∧
      (scheduler k).1.tick_counter = k.tick_counter ∧
      (scheduler k).1.max_num_tasks = k.max_num_tasks ∧
      (scheduler k).1.curr_task_id = k.curr_task_id := by
  cases h : k.is_running
  · rw [scheduler_not_running h]
    simp [h]
  · rw [scheduler_running h]
    simp [update_pending_tasks, h]

theorem scheduler_verdict (k : Kernel) (h : k.is_running = true) :
    (scheduler k).2 = ((scheduler k).1.next_task_id).isSome := by
  rw [scheduler_running h]

theorem select_next_eq_some {k1 : Kernel} {n : Nat} (h : select_next k1 = some n) :
    find_highest_priority_runnable_task k1 = some n ∧ k1.curr_task_id ≠ some n := by
  cases hf : find_highest_priority_runnable_task k1 with
  | none => simp [select_next, hf] at h
  | some m =>
    cases hc : k1.curr_task_id with
    | none =>
      simp [select_next, hf, hc] at h
      subst h
      exact ⟨rfl, by simp [hc]⟩
    | some c =>
      by_cases hcm : c = m
      · subst hcm
        simp [select_next, hf, hc] at h
      · simp [select_next, hf, hc, hcm] at h
        subst h
        exact ⟨rfl, by simp [hc, hcm]⟩

theorem select_next_of_curr {k1 : Kernel} {n : Nat}
    (hf : find_highest_priority_runnable_task k1 = some n)
    (hc : k1.curr_task_id = some n) : select_next k1 = none := by
  simp [select_next, hf, hc]

/-! ### Kernel invariants -/

/-- The ids of the tasks in the list are pairwise distinct. -/
def ids_distinct (l : List Task) : Prop := (l.map Task.id).Nodup

/-- Invariant maintained by every non-faulting API call. -/
structure Inv (k : Kernel) : Prop where
  ids : ids_distinct k.task_list
  running_curr : ∀ t ∈ k.task_list, t.state = TaskState.Running → k.curr_task_id = some t.id
  stopped_next : k.is_running = false → k.next_task_id = none

theorem ids_distinct_middle {A : List Task} {t : Task} {B : List Task}
    (h : ids_distinct (A ++ t :: B)) : ∀ u ∈ B, u.id ≠ t.id := by
  intro u hu
  have h2 : ((t :: B).map Task.id).Nodup := by
    have := h
    rw [ids_distinct, List.map_append] at this
    exact this.of_append_right
  rw [List.map_cons, List.nodup_cons] at h2
  intro he
  exact h2.1 (List.mem_map.mpr ⟨u, hu, he⟩)

theorem map_id_sweep (tick : Nat) (l : List Task) :
    (l.map (sweep_task tick)).map Task.id = l.map Task.id := by
  induction l with
  | nil => rfl
  | cons a as ih => simp [sweep_task_id, ih]

theorem ids_distinct_modify {l : List Task} {id : Nat} {f : Task → Task} {l2 : List Task}
    (hf : ∀ t, (f t).id = t.id) (h : modify_task l id f = some l2)
    (hl : ids_distinct l) : ids_distinct l2 := by
  rw [ids_distinct, modify_task_map_id hf h]
  exact hl

theorem ids_distinct_erase {l : List Task} {i : Nat} (h : ids_distinct l) :
    ids_distinct (l.eraseIdx i) := by
  exact h.sublist ((l.eraseIdx_sublist i).map Task.id)

theorem running_curr_modify (P : Nat → Prop) {l : List Task} {id : Nat} {f : Task → Task}
    {l2 : List Task} (h : modify_task l id f = some l2)
    (hf : ∀ t, (f t).state ≠ TaskState.Running)
    (hrc : ∀ t ∈ l, t.state = TaskState.Running → P t.id) :
    ∀ t ∈ l2, t.state = TaskState.Running → P t.id := by
  intro t ht hr
  rcases modify_task_mem h t ht with ht | ⟨u, hu, hid, rfl⟩
  · exact hrc t ht hr
  · exact absurd hr (hf u)

theorem save_outgoing_id (usp : Option Nat) (t : Task) :
    (save_outgoing usp t).id = t.id := by
  cases usp <;> rfl

theorem save_outgoing_priority (usp : Option Nat) (t : Task) :
    (save_outgoing usp t).priority = t.priority := by
  cases usp <;> rfl

theorem save_outgoing_pend (usp : Option Nat) (t : Task) :
    (save_outgoing usp t).pend = t.pend := by
  cases usp <;> rfl

theorem save_outgoing_state (usp : Option Nat) (t : Task) :
    (save_outgoing usp t).state =
      if t.state = TaskState.Running then TaskState.Ready else t.state := by
  cases usp <;> cases h : t.state <;> simp [save_outgoing, h]

theorem save_outgoing_not_running (usp : Option Nat) (t : Task) :
    (save_outgoing usp t).state ≠ TaskState.Running := by
  rw [save_outgoing_state]
  cases h : t.state <;> simp

theorem save_outgoing_stack_some (sp : Nat) (t : Task) :
    (save_outgoing (some sp) t).stack_ptr = sp := by
  cases h : t.state <;> simp [save_outgoing]

theorem save_outgoing_stack_none (t : Task) :
    (save_outgoing none t).stack_ptr = t.stack_ptr := by
  cases h : t.state <;> simp [save_outgoing]

/-- Full characterization of a successful `handle_context_switch`. -/
theorem hcs_char {k : Kernel} {usp : Option Nat} {k2 : Kernel} {r : Nat}
    (he : handle_context_switch k usp = some (k2, r)) :
    ∃ l1 n l2 nt,
      (match k.curr_task_id with
       | some c => modify_task k.task_list c (save_outgoing usp) = some l1
       | none => l1 = k.task_list) ∧
      k.next_task_id = some n ∧
      modify_task l1 n (fun t => { t with state := TaskState.Running }) = some l2 ∧
      l2.find? (fun t => t.id == n) = some nt ∧
      k2 = { k with task_list := l2, curr_task_id := some n, next_task_id := none } ∧
      r = nt.stack_ptr := by
  cases hc : k.curr_task_id with
  | none =>
    cases hn : k.next_task_id with
    | none => exfalso; simp [handle_context_switch, hc, hn] at he
    | some n =>
      cases hm2 : modify_task k.task_list n (fun t => { t with state := TaskState.Running }) with
      | none => exfalso; simp [handle_context_switch, hc, hn, hm2] at he
      | some l2 =>
        cases hfind : l2.find? (fun t => t.id == n) with
        | none => exfalso; simp [handle_context_switch, hc, hn, hm2, hfind] at he
        | some nt =>
          simp only [handle_context_switch, hc, hn, hm2, hfind] at he
          injection he with he
          rw [Prod.mk.injEq] at he
          exact ⟨k.task_list, n, l2, nt, rfl, rfl, hm2, hfind, he.1.symm, he.2.symm⟩
  | some c =>
    cases hm : modify_task k.task_list c (save_outgoing usp) with
    | none => exfalso; simp [handle_context_switch, hc, hm] at he
    | some l1 =>
      cases hn : k.next_task_id with
      | none => exfalso; simp [handle_context_switch, hc, hm, hn] at he
      | some n =>
        cases hm2 : modify_task l1 n (fun t => { t with state := TaskState.Running }) with
        | none => exfalso; simp [handle_context_switch, hc, hm, hn, hm2] at he
        | some l2 =>
          cases hfind : l2.find? (fun t => t.id == n) with
          | none => exfalso; simp [handle_context_switch, hc, hm, hn, hm2, hfind] at he
          | some nt =>
            simp only [handle_context_switch, hc, hm, hn, hm2, hfind] at he
            injection he with he
            rw [Prod.mk.injEq] at he
            exact ⟨l1, n, l2, nt, hm, rfl, hm2, hfind, he.1.symm, he.2.symm⟩

theorem scheduler_running_curr {k : Kernel}
    (h : ∀ t ∈ k.task_list, t.state = TaskState.Running → k.curr_task_id = some t.id) :
    ∀ t ∈ (scheduler k).1.task_list, t.state = TaskState.Running →
      (scheduler k).1.curr_task_id = some t.id := by
  cases hr : k.is_running
  · rw [scheduler_not_running hr]
    exact h
  · rw [scheduler_running hr]
    intro t ht hrun
    simp only [update_pending_tasks, List.mem_map] at ht
    obtain ⟨u, hu, rfl⟩ := ht
    show k.curr_task_id = some (sweep_task k.tick_counter u).id
    rw [sweep_task_id]
    exact h u hu (sweep_task_running hrun)

theorem scheduler_inv {k : Kernel} (h : Inv k) : Inv (scheduler k).1 := by
  constructor
  · cases hr : k.is_running
    · rw [scheduler_not_running hr]
      exact h.ids
    · rw [scheduler_running hr]
      show ids_distinct (update_pending_tasks k).task_list
      rw [ids_distinct]
      simp only [update_pending_tasks]
      rw [map_id_sweep]
      exact h.ids
  · exact scheduler_running_curr h.running_curr
  · intro hs
    have hks : k.is_running = false := by rw [← (scheduler_fields k).1]; exact hs
    rw [scheduler_not_running hks]
    exact h.stopped_next hks

theorem hcs_inv {k : Kernel} {usp : Option Nat} {k2 : Kernel} {r : Nat}
    (hI : Inv k) (he : handle_context_switch k usp = some (k2, r)) : Inv k2 := by
  obtain ⟨l1, n, l2, nt, h1, hn, hm2, hfind, rfl, -⟩ := hcs_char he
  have hnr : ∀ t ∈ l1, t.state ≠ TaskState.Running := by
    cases hc : k.curr_task_id with
    | none =>
      rw [hc] at h1
      subst h1
      intro t ht hrun
      have := hI.running_curr t ht hrun
      rw [hc] at this
      exact Option.noConfusion this
    | some c =>
      rw [hc] at h1
      obtain ⟨A, tc, B, hsplit, hid, hA, rfl⟩ := modify_task_split h1
      intro t ht hrun
      rcases List.mem_append.mp ht with ht | ht
      · have h2 := hI.running_curr t (by rw [hsplit]; exact List.mem_append_left _ ht) hrun
        rw [hc] at h2
        injection h2 with h2
        exact hA t ht h2.symm
      · rcases List.mem_cons.mp ht with rfl | ht
        · exact save_outgoing_not_running usp tc hrun
        · have h2 := hI.running_curr t
            (by rw [hsplit]; exact List.mem_append_right _ (List.mem_cons_of_mem _ ht)) hrun
          rw [hc] at h2
          injection h2 with h2
          have h3 := ids_distinct_middle (by rw [← hsplit]; exact hI.ids) t ht
          rw [hid] at h3
          exact h3 h2.symm
  have hid1 : l1.map Task.id = k.task_list.map Task.id := by
    cases hc : k.curr_task_id with
    | none =>
      rw [hc] at h1
      rw [h1]
    | some c =>
      rw [hc] at h1
      exact modify_task_map_id (save_outgoing_id usp) h1
  have hidr : ∀ t : Task, (({ t with state := TaskState.Running } : Task)).id = t.id :=
    fun t => rfl
  constructor
  · show ids_distinct l2
    rw [ids_distinct, modify_task_map_id hidr hm2, hid1]
    exact hI.ids
  · intro t ht hrun
    rcases modify_task_mem hm2 t ht with ht | ⟨u, hu, hid, rfl⟩
    · exact absurd hrun (hnr t ht)
    · simp [hid]
  · intro _
    rfl

/-- Characterization of a successful `create`. -/
theorem create_char {k : Kernel} {id p sp : Nat} {k2 : Kernel} {b : Bool}
    (he : create k id p sp = some (k2, b)) :
    (∀ t ∈ k.task_list, t.id ≠ id) ∧ k.task_list.length < k.max_num_tasks ∧
      (k2, b) = scheduler { k with task_list := k.task_list ++
        [{ id := id, priority := p, stack_ptr := sp, state := TaskState.Ready,
           pend := TaskPendReason.NotPending }] } := by
  by_cases hdup : k.task_list.any (fun t => t.id == id) = true
  · simp [create, hdup] at he
  · by_cases hcap : k.max_num_tasks ≤ k.task_list.length
    · simp [create, hdup, hcap] at he
    · refine ⟨?_, by omega, ?_⟩
      · intro t ht heq
        exact hdup (List.any_eq_true.mpr ⟨t, ht, by simp [heq]⟩)
      · simp only [create, hdup, hcap] at he
        simp at he
        exact he.symm

theorem create_inv {k : Kernel} {id p sp : Nat} {k2 : Kernel} {b : Bool}
    (hI : Inv k) (he : create k id p sp = some (k2, b)) : Inv k2 := by
  obtain ⟨hdup, hcap, hpair⟩ := create_char he
  have h2 : k2 = (scheduler { k with task_list := k.task_list ++
      [{ id := id, priority := p, stack_ptr := sp, state := TaskState.Ready,
         pend := TaskPendReason.NotPending }] }).1 := congrArg Prod.fst hpair
  subst h2
  apply scheduler_inv
  constructor
  · show ids_distinct (k.task_list ++ [_])
    rw [ids_distinct, List.map_append]
    refine hI.ids.append (by simp) ?_
    intro a ha hb
    simp only [List.map_cons, List.map_nil, List.mem_singleton] at hb
    obtain ⟨t, ht, rfl⟩ := List.mem_map.mp ha
    exact hdup t ht hb
  · intro t ht hrun
    rcases List.mem_append.mp ht with ht | ht
    · exact hI.running_curr t ht hrun
    · rw [List.mem_singleton] at ht
      subst ht
      exact absurd hrun (by simp)
  · exact hI.stopped_next

/-- Characterization of a successful `delete`. -/
theorem delete_char {k : Kernel} {id : Option Nat} {k2 : Kernel} {b : Bool}
    (he : delete k id = some (k2, b)) :
    ∃ curr_id curr_idx task_idx,
      k.curr_task_id = some curr_id ∧
      find_task_idx k curr_id = some curr_idx ∧
      (match id with
       | some i => find_task_idx k i = some task_idx
       | none => task_idx = curr_idx) ∧
      (k2, b) = scheduler (if curr_idx = task_idx
          then { k with task_list := k.task_list.eraseIdx task_idx, curr_task_id := none }
          else { k with task_list := k.task_list.eraseIdx task_idx }) := by
  cases hc : k.curr_task_id with
  | none => simp [delete, hc] at he
  | some curr_id =>
    cases hidx : find_task_idx k curr_id with
    | none => simp [delete, hc, hidx] at he
    | some curr_idx =>
      cases id with
      | none =>
        refine ⟨curr_id, curr_idx, curr_idx, rfl, hidx, rfl, ?_⟩
        simp only [delete, hc, hidx] at he
        simp at he
        rw [if_pos rfl]
        exact he.symm
      | some i =>
        cases hidx2 : find_task_idx k i with
        | none => simp [delete, hc, hidx, hidx2] at he
        | some task_idx =>
          refine ⟨curr_id, curr_idx, task_idx, rfl, hidx, hidx2, ?_⟩
          simp only [delete, hc, hidx, hidx2] at he
          simp at he
          exact he.symm

theorem delete_inv {k : Kernel} {id : Option Nat} {k2 : Kernel} {b : Bool}
    (hI : Inv k) (he : delete k id = some (k2, b)) : Inv k2 := by
  obtain ⟨curr_id, curr_idx, task_idx, hc, hidx, -, hpair⟩ := delete_char he
  have h2 := congrArg Prod.fst hpair
  subst h2
  apply scheduler_inv
  by_cases hci : curr_idx = task_idx
  · rw [if_pos hci]
    obtain ⟨A, tc, B, hsplit, hlen, hpt, hA⟩ := position_split hidx
    have htc : tc.id = curr_id := by simpa using hpt
    have herase : k.task_list.eraseIdx task_idx = A ++ B := by
      rw [hsplit, ← hci, ← hlen, eraseIdx_append_length]
    constructor
    · exact ids_distinct_erase hI.ids
    · intro t ht hrun
      exfalso
      have ht2 : t ∈ A ++ B := by
        rw [← herase]
        exact ht
      rcases List.mem_append.mp ht2 with ht | ht
      · have h3 := hI.running_curr t (by rw [hsplit]; exact List.mem_append_left _ ht) hrun
        rw [hc] at h3
        injection h3 with h3
        have h4 : (t.id == curr_id) = false := hA t ht
        rw [← h3] at h4
        simp at h4
      · have h3 := hI.running_curr t
          (by rw [hsplit]; exact List.mem_append_right _ (List.mem_cons_of_mem _ ht)) hrun
        rw [hc] at h3
        injection h3 with h3
        have h4 := ids_distinct_middle (by rw [← hsplit]; exact hI.ids) t ht
        rw [htc] at h4
        exact h4 h3.symm
    · exact hI.stopped_next
  · rw [if_neg hci]
    constructor
    · exact ids_distinct_erase hI.ids
    · intro t ht hrun
      exact hI.running_curr t ((k.task_list.eraseIdx_sublist task_idx).subset ht) hrun
    · exact hI.stopped_next

theorem modify_then_sched_inv {k : Kernel} {tid : Nat} {f : Task → Task} {l : List Task}
    (hI : Inv k) (hm : modify_task k.task_list tid f = some l)
    (hf_id : ∀ t, (f t).id = t.id)
    (hf_st : ∀ t, (f t).state ≠ TaskState.Running) :
    Inv (scheduler { k with task_list := l }).1 := by
  apply scheduler_inv
  constructor
  · exact ids_distinct_modify hf_id hm hI.ids
  · exact running_curr_modify (fun i => k.curr_task_id = some i) hm hf_st hI.running_curr
  · exact hI.stopped_next

theorem exec_inv {k : Kernel} {op : Op} {k2 : Kernel}
    (hI : Inv k) (he : exec k op = some k2) : Inv k2 := by
  cases op with
  | create id p sp =>
    simp only [exec, Option.map_eq_some'] at he
    obtain ⟨a, ha, hk⟩ := he
    subst hk
    exact create_inv hI ha
  | delete id =>
    simp only [exec, Option.map_eq_some'] at he
    obtain ⟨a, ha, hk⟩ := he
    subst hk
    exact delete_inv hI ha
  | start =>
    simp only [exec, Option.map_eq_some'] at he
    obtain ⟨a, ha, hk⟩ := he
    subst hk
    cases hrun : k.is_running with
    | true => simp [start, hrun] at ha
    | false =>
      have hmid : Inv { k with is_running := true } := by
        constructor
        · exact hI.ids
        · exact hI.running_curr
        · intro h
          simp at h
      cases hv : (scheduler { k with is_running := true }).2 with
      | false => simp [start, hrun, hv] at ha
      | true =>
        have ha2 : handle_context_switch (scheduler { k with is_running := true }).1 none
            = some a := by
          simpa [start, hrun, hv] using ha
        exact hcs_inv (scheduler_inv hmid) ha2
  | sleep d =>
    simp only [exec, Option.map_eq_some'] at he
    obtain ⟨a, ha, hk⟩ := he
    subst hk
    cases hc : k.curr_task_id with
    | none => simp [sleep, hc] at ha
    | some c =>
      cases hm : modify_task k.task_list c
          (fun t => { t with
                        state := TaskState.Pending
                        pend := TaskPendReason.Sleep (k.tick_counter + d) }) with
      | none => simp [sleep, hc, hm] at ha
      | some l =>
        have h2 : a.1 = (scheduler { k with task_list := l }).1 := by
          simp [sleep, hc, hm] at ha
          rw [← ha, hc]
        rw [h2]
        exact modify_then_sched_inv hI hm (fun t => rfl) (fun t => by simp)
  | suspend id =>
    simp only [exec, Option.map_eq_some'] at he
    obtain ⟨a, ha, hk⟩ := he
    subst hk
    cases id with
    | some i =>
      cases hm : modify_task k.task_list i
          (fun t => { t with
                        state := TaskState.Pending
                        pend := TaskPendReason.Suspended }) with
      | none => simp [suspend, hm] at ha
      | some l =>
        have h2 : a.1 = (scheduler { k with task_list := l }).1 := by
          simp [suspend, hm] at ha
          rw [← ha]
        rw [h2]
        exact modify_then_sched_inv hI hm (fun t => rfl) (fun t => by simp)
    | none =>
      cases hc : k.curr_task_id with
      | none => simp [suspend, hc] at ha
      | some c =>
        cases hm : modify_task k.task_list c
            (fun t => { t with
                          state := TaskState.Pending
                          pend := TaskPendReason.Suspended }) with
        | none => simp [suspend, hc, hm] at ha
        | some l =>
          have h2 : a.1 = (scheduler { k with task_list := l }).1 := by
            simp [suspend, hc, hm] at ha
            rw [← ha, hc]
          rw [h2]
          exact modify_then_sched_inv hI hm (fun t => rfl) (fun t => by simp)
  | resume id =>
    simp only [exec, Option.map_eq_some'] at he
    obtain ⟨a, ha, hk⟩ := he
    subst hk
    cases hm : modify_task k.task_list id
        (fun t => { t with
                      state := TaskState.Ready
                      pend := TaskPendReason.NotPending }) with
    | none => simp [resume, hm] at ha
    | some l =>
      have h2 : a.1 = (scheduler { k with task_list := l }).1 := by
        simp [resume, hm] at ha
        rw [← ha]
      rw [h2]
      exact modify_then_sched_inv hI hm (fun t => rfl) (fun t => by simp)
  | tick_update e =>
    simp only [exec] at he
    injection he with he
    subst he
    apply scheduler_inv
    constructor
    · exact hI.ids
    · exact hI.running_curr
    · exact hI.stopped_next
  | handle_context_switch usp =>
    simp only [exec, Option.map_eq_some'] at he
    obtain ⟨a, ha, hk⟩ := he
    subst hk
    exact hcs_inv hI ha

/-- Every reachable state satisfies the kernel invariant. -/
theorem reachable_inv {k : Kernel} (h : Reachable k) : Inv k := by
  induction h with
  | base m =>
    constructor
    · simp [Kernel.new, ids_distinct]
    · intro t ht
      simp [Kernel.new] at ht
    · intro _
      rfl
  | step op hr he ih => exact exec_inv ih he

/-! ### Concrete states used by witnesses

`KS` is the state of the kernel from the unit tests of kernel.rs: two
tasks (id 0 at priority 99, id 1 at priority 100) created and the kernel
started, so task 0 is Running and current. -/

def KSa : Kernel :=
  { is_running := false, tick_counter := 0, max_num_tasks := 3,
    task_list := [
      { id := 0, priority := 99, stack_ptr := 100, state := TaskState.Ready,
        pend := TaskPendReason.NotPending }],
    curr_task_id := none, next_task_id := none }

def KSb : Kernel :=
  { is_running := false, tick_counter := 0, max_num_tasks := 3,
    task_list := [
      { id := 0, priority := 99, stack_ptr := 100, state := TaskState.Ready,
        pend := TaskPendReason.NotPending },
      { id := 1, priority := 100, stack_ptr := 200, state := TaskState.Ready,
        pend := TaskPendReason.NotPending }],
    curr_task_id := none, next_task_id := none }

def KS : Kernel :=
  { is_running := true, tick_counter := 0, max_num_tasks := 3,
    task_list := [
      { id := 0, priority := 99, stack_ptr := 100, state := TaskState.Running,
        pend := TaskPendReason.NotPending },
      { id := 1, priority := 100, stack_ptr := 200, state := TaskState.Ready,
        pend := TaskPendReason.NotPending }],
    curr_task_id := some 0, next_task_id := none }

theorem reachable_KS : Reachable KS := by
  have h0 : Reachable (Kernel.new 3) := Reachable.base 3
  have h1 : Reachable KSa := Reachable.step (Op.create 0 99 100) h0 (by decide)
  have h2 : Reachable KSb := Reachable.step (Op.create 1 100 200) h1 (by decide)
  exact Reachable.step Op.start h2 (by decide)

theorem best_of_min {l : List Task} {t : Task} (h : best_of l = some t) :
    ∀ u ∈ l, u.is_runnable = true → t.priority ≤ u.priority := by
  obtain ⟨hr, l₁, l₃, heq, hlt, hle⟩ := best_of_split h
  intro u hu hru
  rw [heq] at hu
  rcases List.mem_append.mp hu with hu | hu
  · exact Nat.le_of_lt (hlt u hu hru)
  · rcases List.mem_cons.mp hu with rfl | hu
    · exact Nat.le_refl _
    · exact hle u hu hru

/-! ### The claims -/

/-- C1: whenever at least one task is runnable, the scheduler's selection
step (`find_highest_priority_runnable_task`) returns the id of a runnable
task whose priority is minimal among all runnable tasks, never a Pending
task; with equal priorities the task appearing first in the task list is
chosen (every runnable task strictly before the chosen one has strictly
larger priority). -/
theorem C1_selection_first_min (k : Kernel)
    (h : ∃ t ∈ k.task_list, t.is_runnable = true) :
    ∃ l₁ t l₃, k.task_list = l₁ ++ t :: l₃ ∧
      find_highest_priority_runnable_task k = some t.id ∧
      t.is_runnable = true ∧
      (∀ u ∈ k.task_list, u.is_runnable = true → t.priority ≤ u.priority) ∧
      (∀ u ∈ l₁, u.is_runnable = true → t.priority < u.priority) := by
  obtain ⟨t0, ht0, hr0⟩ := h
  cases hb : best_of k.task_list with
  | none => exact absurd (best_of_eq_none.mp hb t0 ht0) (by simp [hr0])
  | some t =>
    obtain ⟨hr, l₁, l₃, heq, hlt, hle⟩ := best_of_split hb
    exact ⟨l₁, t, l₃, heq, by rw [find_highest_eq_best_of, hb]; rfl, hr,
      best_of_min hb, hlt⟩

/-- Witness for C1 at the two-task started kernel `KS`. -/
theorem C1_selection_first_min_witness :
    ∃ l₁ t l₃, KS.task_list = l₁ ++ t :: l₃ ∧
      find_highest_priority_runnable_task KS = some t.id ∧
      t.is_runnable = true ∧
      (∀ u ∈ KS.task_list, u.is_runnable = true → t.priority ≤ u.priority) ∧
      (∀ u ∈ l₁, u.is_runnable = true → t.priority < u.priority) :=
  C1_selection_first_min KS (by decide)

/-- States reached by the counterexample for C2: `create` checks id
uniqueness only, so two live tasks may share priority 99. -/
def K2a : Kernel :=
  { is_running := false, tick_counter := 0, max_num_tasks := 3,
    task_list := [
      { id := 0, priority := 99, stack_ptr := 100, state := TaskState.Ready,
        pend := TaskPendReason.NotPending }],
    curr_task_id := none, next_task_id := none }

def K2b : Kernel :=
  { is_running := false, tick_counter := 0, max_num_tasks := 3,
    task_list := [
      { id := 0, priority := 99, stack_ptr := 100, state := TaskState.Ready,
        pend := TaskPendReason.NotPending },
      { id := 1, priority := 99, stack_ptr := 200, state := TaskState.Ready,
        pend := TaskPendReason.NotPending }],
    curr_task_id := none, next_task_id := none }

/-- C2 counterexample: from a fresh kernel, two non-faulting `create`
calls with the same priority 99 succeed, leaving two live tasks whose
priorities are not pairwise distinct — `create` does not fault on a
duplicate priority. -/
theorem C2_counterexample :
    exec (Kernel.new 3) (Op.create 0 99 100) = some K2a ∧
    exec K2a (Op.create 1 99 200) = some K2b ∧
    K2b.task_list.map Task.priority = [99, 99] ∧
    ¬ K2b.task_list.Pairwise (fun a b => a.priority ≠ b.priority) := by
  refine ⟨by decide, by decide, by decide, ?_⟩
  intro h
  simp only [K2b] at h
  rw [List.pairwise_cons] at h
  exact h.1 _ (List.mem_cons_self _ _) rfl

/-- C2 amended: after any sequence of non-faulting API calls the ids (not
the priorities) of the live tasks are pairwise distinct, and `create`
faults exactly when the given id (not priority) equals the id of an
existing live task; priorities are not checked. -/
theorem C2_amended_ids_distinct (k : Kernel) (h : Reachable k) :
    ids_distinct k.task_list ∧
      ∀ id p sp, (∃ t ∈ k.task_list, t.id = id) → create k id p sp = none := by
  refine ⟨(reachable_inv h).ids, ?_⟩
  rintro id p sp ⟨t, ht, hid⟩
  have hany : k.task_list.any (fun t2 => t2.id == id) = true :=
    List.any_eq_true.mpr ⟨t, ht, by simp [hid]⟩
  simp only [create]
  rw [if_pos hany]

/-- Witness for the amended C2 at the reachable state `KS`. -/
theorem C2_amended_ids_distinct_witness :
    ids_distinct KS.task_list ∧
      ∀ id p sp, (∃ t ∈ KS.task_list, t.id = id) → create KS id p sp = none :=
  C2_amended_ids_distinct KS reachable_KS

/-- C4: in every state reachable by non-faulting API calls from a fresh
kernel, any task with state Running is the task identified by
`curr_task_id`, and at most one task in the task list is Running (two
Running positions coincide). -/
theorem C4_at_most_one_running (k : Kernel) (h : Reachable k) :
    (∀ t ∈ k.task_list, t.state = TaskState.Running → k.curr_task_id = some t.id) ∧
    (∀ i j : Nat, ∀ ti tj : Task, k.task_list.get? i = some ti →
      k.task_list.get? j = some tj →
      ti.state = TaskState.Running → tj.state = TaskState.Running → i = j) := by
  have hI := reachable_inv h
  refine ⟨hI.running_curr, ?_⟩
  intro i j ti tj hi hj hri hrj
  have h1 := hI.running_curr ti (List.get?_mem hi) hri
  have h2 := hI.running_curr tj (List.get?_mem hj) hrj
  rw [h1] at h2
  injection h2 with h2
  have gi : (k.task_list.map Task.id).get? i = some ti.id := by
    rw [List.get?_map, hi]
    rfl
  have gj : (k.task_list.map Task.id).get? j = some tj.id := by
    rw [List.get?_map, hj]
    rfl
  have hlen : i < (k.task_list.map Task.id).length := by
    by_contra hlt
    rw [List.get?_eq_none.mpr (Nat.le_of_not_lt hlt)] at gi
    exact Option.noConfusion gi
  exact List.get?_inj hlen hI.ids (by rw [gi, gj, h2])

/-- Witness for C4 at the reachable state `KS`. -/
theorem C4_at_most_one_running_witness :
    (∀ t ∈ KS.task_list, t.state = TaskState.Running → KS.curr_task_id = some t.id) ∧
    (∀ i j : Nat, ∀ ti tj : Task, KS.task_list.get? i = some ti →
      KS.task_list.get? j = some tj →
      ti.state = TaskState.Running → tj.state = TaskState.Running → i = j) :=
  C4_at_most_one_running KS reachable_KS

/-- C5: a scheduler invocation on a running kernel performs the wake
sweep first and selection second: the resulting task list is the sweep of
the old one, every task sleeping until `w ≤ tick_counter` is made Ready
with pend NotPending (hence runnable, so a task expiring exactly at the
current tick is eligible in this same invocation), Suspended tasks are
untouched by the sweep, and the chosen `next_task_id` is the selection
computed over the swept task list. -/
theorem C5_sweep_before_selection (k : Kernel) (h : k.is_running = true) :
    (scheduler k).1.task_list = k.task_list.map (sweep_task k.tick_counter) ∧
    (∀ t ∈ k.task_list, ∀ w, t.pend = TaskPendReason.Sleep w → w ≤ k.tick_counter →
      (sweep_task k.tick_counter t).state = TaskState.Ready ∧
      (sweep_task k.tick_counter t).pend = TaskPendReason.NotPending ∧
      (sweep_task k.tick_counter t).is_runnable = true) ∧
    (∀ t ∈ k.task_list, t.pend = TaskPendReason.Suspended →
      sweep_task k.tick_counter t = t) ∧
    ((scheduler k).1.next_task_id = none ∨
      ∃ n, (scheduler k).1.next_task_id = some n ∧
        find_highest_priority_runnable_task (update_pending_tasks k) = some n ∧
        ∃ t ∈ (update_pending_tasks k).task_list, t.id = n ∧ t.is_runnable = true) := by
  rw [scheduler_running h]
  refine ⟨rfl, ?_, ?_, ?_⟩
  · intro t ht w hp hw
    obtain ⟨h1, h2⟩ := sweep_task_wake hp hw
    exact ⟨h1, h2, by simp [Task.is_runnable, h1]⟩
  · intro t ht hp
    exact sweep_task_suspended hp
  · cases hs : select_next (update_pending_tasks k) with
    | none =>
      left
      simp [hs]
    | some n =>
      right
      obtain ⟨hf, -⟩ := select_next_eq_some hs
      exact ⟨n, by simp [hs], hf, find_highest_mem hf⟩

/-- Witness for C5 at the running kernel `KS`. -/
theorem C5_sweep_before_selection_witness :
    (scheduler KS).1.task_list = KS.task_list.map (sweep_task KS.tick_counter) ∧
    (∀ t ∈ KS.task_list, ∀ w, t.pend = TaskPendReason.Sleep w → w ≤ KS.tick_counter →
      (sweep_task KS.tick_counter t).state = TaskState.Ready ∧
      (sweep_task KS.tick_counter t).pend = TaskPendReason.NotPending ∧
      (sweep_task KS.tick_counter t).is_runnable = true) ∧
    (∀ t ∈ KS.task_list, t.pend = TaskPendReason.Suspended →
      sweep_task KS.tick_counter t = t) ∧
    ((scheduler KS).1.next_task_id = none ∨
      ∃ n, (scheduler KS).1.next_task_id = some n ∧
        find_highest_priority_runnable_task (update_pending_tasks KS) = some n ∧
        ∃ t ∈ (update_pending_tasks KS).task_list, t.id = n ∧ t.is_runnable = true) :=
  C5_sweep_before_selection KS rfl

/-- State after `delete(None)` from `KS`: the current task was deleted,
`curr_task_id` is none, the kernel is running, and task 1 exists. -/
def K6 : Kernel :=
  { is_running := true, tick_counter := 0, max_num_tasks := 3,
    task_list := [
      { id := 1, priority := 100, stack_ptr := 200, state := TaskState.Ready,
        pend := TaskPendReason.NotPending }],
    curr_task_id := none, next_task_id := some 1 }

/-- C6: the kernel state `K6` is reachable (delete the current task of
`KS` and do not commit the switch yet), is running, and contains task 1;
yet `delete(Some 1)` faults, because `Kernel::delete` unconditionally
takes `curr_task_id.expect("Kernel not running")` before looking at its
argument.  This contradicts delete's own documented panic conditions
(unknown id, or called before the kernel is running). -/
theorem C6_delete_curr_none_bug :
    Reachable K6 ∧ K6.is_running = true ∧ (∃ t ∈ K6.task_list, t.id = 1) ∧
      delete K6 (some 1) = none :=
  ⟨Reachable.step (Op.delete none) reachable_KS (by decide),
    by decide, by decide, by decide⟩

/-- C7: in every reachable state, a scheduler invocation returns true
exactly when `next_task_id` is some afterwards; when the chosen task over
the swept list is the current task it sets `next_task_id := none` and
returns false; and on a non-running kernel it returns false and
`next_task_id` is none. -/
theorem C7_scheduler_verdict (k : Kernel) (h : Reachable k) :
    ((scheduler k).2 = true ↔ ((scheduler k).1.next_task_id).isSome = true) ∧
    (k.is_running = false →
      (scheduler k).2 = false ∧ (scheduler k).1.next_task_id = none) ∧
    (∀ n, k.is_running = true →
      find_highest_priority_runnable_task (update_pending_tasks k) = some n →
      k.curr_task_id = some n →
      (scheduler k).2 = false ∧ (scheduler k).1.next_task_id = none) := by
  have hI := reachable_inv h
  refine ⟨?_, ?_, ?_⟩
  · cases hr : k.is_running with
    | false =>
      rw [scheduler_not_running hr]
      simp [hI.stopped_next hr]
    | true =>
      rw [scheduler_verdict k hr]
  · intro hr
    rw [scheduler_not_running hr]
    exact ⟨rfl, hI.stopped_next hr⟩
  · intro n hr hf hc
    have hcu : (update_pending_tasks k).curr_task_id = some n := by
      rw [(update_pending_fields k).2.2.2.1]
      exact hc
    have hsel : select_next (update_pending_tasks k) = none := select_next_of_curr hf hcu
    rw [scheduler_running hr]
    simp [hsel]

/-- Witness for C7 at the reachable state `KS` (where the chosen task
is the current task 0, so the scheduler answers false). -/
theorem C7_scheduler_verdict_witness :
    ((scheduler KS).2 = true ↔ ((scheduler KS).1.next_task_id).isSome = true) ∧
    (KS.is_running = false →
      (scheduler KS).2 = false ∧ (scheduler KS).1.next_task_id = none) ∧
    (∀ n, KS.is_running = true →
      find_highest_priority_runnable_task (update_pending_tasks KS) = some n →
      KS.curr_task_id = some n →
      (scheduler KS).2 = false ∧ (scheduler KS).1.next_task_id = none) :=
  C7_scheduler_verdict KS reachable_KS

theorem find?_modify_other {l : List Task} {id : Nat} {f : Task → Task} {l2 : List Task}
    {c : Nat} (h : modify_task l id f = some l2) (hf : ∀ t, (f t).id = t.id)
    (hne : c ≠ id) :
    l2.find? (fun u => u.id == c) = l.find? (fun u => u.id == c) := by
  induction l generalizing l2 with
  | nil => simp [modify_task] at h
  | cons a as ih =>
    by_cases ha : a.id = id
    · simp [modify_task, ha] at h
      subst h
      have hac : (a.id == c) = false := by
        simp
        omega
      have hfc : ((f a).id == c) = false := by
        rw [hf]
        exact hac
      rw [List.find?_cons, List.find?_cons, hac, hfc]
    · simp only [modify_task, if_neg ha, Option.map_eq_some'] at h
      obtain ⟨as2, h1, h2⟩ := h
      subst h2
      rw [List.find?_cons, List.find?_cons]
      cases hval : (a.id == c) with
      | true => rfl
      | false => exact ih h1

theorem find?_id_map {g : Task → Task} (hg : ∀ t, (g t).id = t.id) (c : Nat)
    (l : List Task) :
    (l.map g).find? (fun u => u.id == c) = (l.find? (fun u => u.id == c)).map g := by
  induction l with
  | nil => rfl
  | cons a as ih =>
    rw [List.map_cons, List.find?_cons, List.find?_cons]
    have hpr : ((g a).id == c) = (a.id == c) := by rw [hg]
    rw [hpr]
    cases hval : (a.id == c) with
    | true => rfl
    | false => exact ih

/-- Success characterization of `handle_context_switch`: given that the
current task (if any) exists, `next_task_id = some n`, and task `n`
exists, the call succeeds and performs the save-outgoing phase, the
promotion of task `n`, and returns its stack pointer. -/
theorem hcs_success {k : Kernel} {usp : Option Nat} {n : Nat}
    (hc : ∀ c, k.curr_task_id = some c → ∃ t ∈ k.task_list, t.id = c)
    (hn : k.next_task_id = some n)
    (hex : ∃ t ∈ k.task_list, t.id = n) :
    ∃ l1 l2 nt,
      (match k.curr_task_id with
       | some c => modify_task k.task_list c (save_outgoing usp) = some l1
       | none => l1 = k.task_list) ∧
      l1.map Task.id = k.task_list.map Task.id ∧
      modify_task l1 n (fun t => { t with state := TaskState.Running }) = some l2 ∧
      l2.find? (fun t => t.id == n) = some nt ∧
      handle_context_switch k usp =
        some ({ k with task_list := l2, curr_task_id := some n, next_task_id := none },
          nt.stack_ptr) := by
  have hstep : ∃ l1, (match k.curr_task_id with
      | some c => modify_task k.task_list c (save_outgoing usp) = some l1
      | none => l1 = k.task_list) ∧ l1.map Task.id = k.task_list.map Task.id := by
    cases hcur : k.curr_task_id with
    | none => exact ⟨k.task_list, rfl, rfl⟩
    | some c =>
      obtain ⟨l1, hm⟩ := modify_task_isSome (save_outgoing usp) (hc c hcur)
      exact ⟨l1, hm, modify_task_map_id (save_outgoing_id usp) hm⟩
  obtain ⟨l1, h1, hmap⟩ := hstep
  have hex1 : ∃ t ∈ l1, t.id = n := by
    obtain ⟨t, ht, hid⟩ := hex
    have hmem : n ∈ l1.map Task.id := by
      rw [hmap]
      exact List.mem_map.mpr ⟨t, ht, hid⟩
    obtain ⟨u, hu, hid2⟩ := List.mem_map.mp hmem
    exact ⟨u, hu, hid2⟩
  obtain ⟨l2, hm2⟩ := modify_task_isSome
    (fun t => { t with state := TaskState.Running }) hex1
  obtain ⟨t', ht'1, ht'2⟩ := find?_id_modify hm2 (fun t => rfl)
  refine ⟨l1, l2, { t' with state := TaskState.Running }, h1, hmap, hm2, ht'2, ?_⟩
  cases hcur : k.curr_task_id with
  | none =>
    rw [hcur] at h1
    have h1' : l1 = k.task_list := h1
    subst h1'
    simp [handle_context_switch, hcur, hn, hm2, ht'2]
  | some c =>
    rw [hcur] at h1
    have h1' : modify_task k.task_list c (save_outgoing usp) = some l1 := h1
    simp [handle_context_switch, hcur, h1', hn, hm2, ht'2]

/-- C3: for a kernel whose current task (if any) exists in the task list,
`handle_context_switch(updated_sp)` faults when `next_task_id` is none;
and when `next_task_id = some n` with task `n` existing it (1) writes
`updated_sp` (when some) into the current task's TCB and demotes it from
Running to Ready (leaving a non-Running state unchanged), (2) sets
`curr_task_id := some n`, `next_task_id := none` and task `n`'s state to
Running, and returns task `n`'s stack pointer. -/
theorem C3_handle_context_switch (k : Kernel) (usp : Option Nat)
    (hc : ∀ c, k.curr_task_id = some c → ∃ t ∈ k.task_list, t.id = c) :
    (k.next_task_id = none → handle_context_switch k usp = none) ∧
    (∀ n, k.next_task_id = some n → (∃ t ∈ k.task_list, t.id = n) →
      ∃ k2 ret, handle_context_switch k usp = some (k2, ret) ∧
        k2.curr_task_id = some n ∧
        k2.next_task_id = none ∧
        (∃ tn, k2.task_list.find? (fun t => t.id == n) = some tn ∧
          tn.state = TaskState.Running ∧ ret = tn.stack_ptr) ∧
        (∀ c sp, k.curr_task_id = some c → usp = some sp →
          ∃ t t2, k.task_list.find? (fun u => u.id == c) = some t ∧
            k2.task_list.find? (fun u => u.id == c) = some t2 ∧
            t2.stack_ptr = sp ∧ t2.id = t.id ∧ t2.priority = t.priority ∧
            t2.pend = t.pend ∧
            t2.state = (if c = n then TaskState.Running
              else if t.state = TaskState.Running then TaskState.Ready
              else t.state))) := by
  constructor
  · intro hn
    cases hcur : k.curr_task_id with
    | none => simp [handle_context_switch, hcur, hn]
    | some c =>
      obtain ⟨l1, hm⟩ := modify_task_isSome (save_outgoing usp) (hc c hcur)
      simp [handle_context_switch, hcur, hm, hn]
  · intro n hn hex
    obtain ⟨l1, l2, nt, h1, hmap, hm2, hfind, heq⟩ := hcs_success hc hn hex
    refine ⟨_, _, heq, rfl, rfl, ⟨nt, hfind, ?_, rfl⟩, ?_⟩
    · obtain ⟨t', h'1, h'2⟩ := find?_id_modify hm2 (fun t => rfl)
      rw [hfind] at h'2
      injection h'2 with h'2
      rw [h'2]
    · intro c sp hcur hsp
      subst hsp
      rw [hcur] at h1
      have h1' : modify_task k.task_list c (save_outgoing (some sp)) = some l1 := h1
      obtain ⟨t, ht1, ht2⟩ := find?_id_modify h1' (save_outgoing_id (some sp))
      by_cases hcn : c = n
      · subst hcn
        obtain ⟨t'', h''1, h''2⟩ := find?_id_modify hm2 (fun t => rfl)
        rw [ht2] at h''1
        injection h''1 with h''1
        refine ⟨t, { t'' with state := TaskState.Running }, ht1, h''2, ?_, ?_, ?_, ?_, ?_⟩
        · show t''.stack_ptr = sp
          rw [← h''1]
          exact save_outgoing_stack_some sp t
        · show t''.id = t.id
          rw [← h''1]
          exact save_outgoing_id (some sp) t
        · show t''.priority = t.priority
          rw [← h''1]
          exact save_outgoing_priority (some sp) t
        · show t''.pend = t.pend
          rw [← h''1]
          exact save_outgoing_pend (some sp) t
        · simp
      · have hother := find?_modify_other hm2 (fun t => rfl) hcn
        refine ⟨t, save_outgoing (some sp) t, ht1, ?_, ?_, ?_, ?_, ?_, ?_⟩
        · show l2.find? (fun u => u.id == c) = _
          rw [hother]
          exact ht2
        · exact save_outgoing_stack_some sp t
        · exact save_outgoing_id (some sp) t
        · exact save_outgoing_priority (some sp) t
        · exact save_outgoing_pend (some sp) t
        · rw [if_neg hcn]
          exact save_outgoing_state (some sp) t

/-- State after `sleep(2)` from `KS`: task 0 is Pending until tick 2 and
a switch to task 1 is requested. -/
def K4 : Kernel :=
  { is_running := true, tick_counter := 0, max_num_tasks := 3,
    task_list := [
      { id := 0, priority := 99, stack_ptr := 100, state := TaskState.Pending,
        pend := TaskPendReason.Sleep 2 },
      { id := 1, priority := 100, stack_ptr := 200, state := TaskState.Ready,
        pend := TaskPendReason.NotPending }],
    curr_task_id := some 0, next_task_id := some 1 }

/-- Witness for C3 at `K4` with `updated_sp = some 500`. -/
theorem C3_handle_context_switch_witness :
    ∃ k2 ret, handle_context_switch K4 (some 500) = some (k2, ret) ∧
      k2.curr_task_id = some 1 ∧
      k2.next_task_id = none ∧
      (∃ tn, k2.task_list.find? (fun t => t.id == 1) = some tn ∧
        tn.state = TaskState.Running ∧ ret = tn.stack_ptr) ∧
      (∀ c sp, K4.curr_task_id = some c → (some 500 : Option Nat) = some sp →
        ∃ t t2, K4.task_list.find? (fun u => u.id == c) = some t ∧
          k2.task_list.find? (fun u => u.id == c) = some t2 ∧
          t2.stack_ptr = sp ∧ t2.id = t.id ∧ t2.priority = t.priority ∧
          t2.pend = t.pend ∧
          t2.state = (if c = 1 then TaskState.Running
            else if t.state = TaskState.Running then TaskState.Ready
            else t.state)) :=
  (C3_handle_context_switch K4 (some 500) (by decide)).2 1 rfl (by decide)

/-- If the task with id `c` is runnable and its priority is strictly
below that of every other runnable task, and `c` is the current task,
the scheduler decides that no switch is needed. -/
theorem select_of_strict_min {k1 : Kernel} {c : Nat} {t1 : Task}
    (hc : k1.curr_task_id = some c)
    (hmem : t1 ∈ k1.task_list) (hid : t1.id = c) (hr : t1.is_runnable = true)
    (hmin : ∀ u ∈ k1.task_list, u.is_runnable = true → u.id ≠ c →
      t1.priority < u.priority) :
    select_next k1 = none := by
  obtain ⟨m, hm⟩ := find_highest_isSome hmem hr
  have hm2 := hm
  rw [find_highest_eq_best_of, Option.map_eq_some'] at hm2
  obtain ⟨tb, hb, hbid⟩ := hm2
  have hbmem : tb ∈ k1.task_list := by
    obtain ⟨-, l₁, l₃, heq, -, -⟩ := best_of_split hb
    rw [heq]
    exact List.mem_append_right _ (List.mem_cons_self _ _)
  have hbr := (best_of_split hb).1
  by_cases hbc : tb.id = c
  · have hfc : find_highest_priority_runnable_task k1 = some c := by
      rw [hm, show m = c from by rw [← hbid, hbc]]
    exact select_next_of_curr hfc hc
  · exfalso
    have h1 := hmin tb hbmem hbr hbc
    have h2 := best_of_min hb t1 hmem hr
    omega

/-- C9: `sleep(0)` by the current task `c` on a running kernel first
marks it Pending with pend `Sleep(tick_counter + 0)` (the current tick),
and the wake sweep of the scheduler pass inside the same call revives it
to Ready with pend NotPending; if moreover the current task's priority is
strictly smallest among the runnable tasks, `sleep(0)` returns false and
requests no switch. -/
theorem C9_sleep_zero (k : Kernel) (c : Nat) (tc : Task)
    (hr : k.is_running = true) (hc : k.curr_task_id = some c)
    (hf : k.task_list.find? (fun t => t.id == c) = some tc) :
    ∃ k1 b lmid, sleep k 0 = some (k1, b) ∧
      modify_task k.task_list c
        (fun t => { t with
                      state := TaskState.Pending
                      pend := TaskPendReason.Sleep (k.tick_counter + 0) }) = some lmid ∧
      lmid.find? (fun t => t.id == c) = some { tc with
        state := TaskState.Pending,
        pend := TaskPendReason.Sleep (k.tick_counter + 0) } ∧
      k1.task_list = lmid.map (sweep_task k.tick_counter) ∧
      (∃ t1, k1.task_list.find? (fun t => t.id == c) = some t1 ∧
        t1.state = TaskState.Ready ∧ t1.pend = TaskPendReason.NotPending ∧
        t1.priority = tc.priority) ∧
      k1.curr_task_id = some c ∧
      ((∀ u ∈ k1.task_list, u.is_runnable = true → u.id ≠ c →
          tc.priority < u.priority) →
        b = false ∧ k1.next_task_id = none) := by
  have htc : tc.id = c := by
    have := List.find?_some hf
    simpa using this
  have hex : ∃ t ∈ k.task_list, t.id = c :=
    ⟨tc, List.mem_of_find?_eq_some hf, htc⟩
  obtain ⟨lmid, hm⟩ := modify_task_isSome
    (fun t => { t with
                  state := TaskState.Pending
                  pend := TaskPendReason.Sleep (k.tick_counter + 0) }) hex
  obtain ⟨t0, h01, h02⟩ := find?_id_modify hm (fun t => rfl)
  rw [hf] at h01
  injection h01 with h01
  subst h01
  have hs : sleep k 0 = some (scheduler { k with task_list := lmid }) := by
    simp only [sleep, hc, hm]
  have hrmid : ({ k with task_list := lmid } : Kernel).is_running = true := hr
  have hsw : sweep_task k.tick_counter ({ tc with state := TaskState.Pending, pend := TaskPendReason.Sleep (k.tick_counter + 0) } : Task) = { tc with state := TaskState.Ready, pend := TaskPendReason.NotPending } := by
    simp [sweep_task]
  have hfind1 : (lmid.map (sweep_task k.tick_counter)).find? (fun t => t.id == c) = some { tc with state := TaskState.Ready, pend := TaskPendReason.NotPending } := by
    rw [find?_id_map (sweep_task_id k.tick_counter) c lmid, h02, Option.map_some', hsw]
  refine ⟨(scheduler { k with task_list := lmid }).1,
    (scheduler { k with task_list := lmid }).2, lmid, by rw [hs], hm, h02, ?_, ?_, ?_, ?_⟩
  · rw [scheduler_running hrmid]
    rfl
  · rw [scheduler_running hrmid]
    exact ⟨{ tc with state := TaskState.Ready, pend := TaskPendReason.NotPending }, hfind1, rfl, rfl, rfl⟩
  · rw [scheduler_running hrmid]
    exact hc
  · intro hmin
    rw [scheduler_running hrmid] at hmin ⊢
    have hc2 : (update_pending_tasks { k with task_list := lmid }).curr_task_id = some c := hc
    have hmem2 : ({ tc with state := TaskState.Ready, pend := TaskPendReason.NotPending } : Task) ∈ (update_pending_tasks { k with task_list := lmid }).task_list :=
      List.mem_of_find?_eq_some hfind1
    have hsel : select_next (update_pending_tasks { k with task_list := lmid }) = none :=
      select_of_strict_min hc2 hmem2 htc (by simp [Task.is_runnable])
        (fun u hu h1 h2 => hmin u hu h1 h2)
    refine ⟨?_, ?_⟩
    · show (select_next (update_pending_tasks { k with task_list := lmid })).isSome = false
      rw [hsel]
      rfl
    · show select_next (update_pending_tasks { k with task_list := lmid }) = none
      exact hsel

/-- The Running current task of `KS` (task 0). -/
def KT0 : Task :=
  { id := 0, priority := 99, stack_ptr := 100, state := TaskState.Running,
    pend := TaskPendReason.NotPending }

/-- Witness for C9 at `KS`, whose current task 0 has the smallest
priority. -/
theorem C9_sleep_zero_witness :
    ∃ k1 b lmid, sleep KS 0 = some (k1, b) ∧
      modify_task KS.task_list 0
        (fun t => { t with
                      state := TaskState.Pending
                      pend := TaskPendReason.Sleep (KS.tick_counter + 0) }) = some lmid ∧
      lmid.find? (fun t => t.id == 0) = some { KT0 with
        state := TaskState.Pending,
        pend := TaskPendReason.Sleep (KS.tick_counter + 0) } ∧
      k1.task_list = lmid.map (sweep_task KS.tick_counter) ∧
      (∃ t1, k1.task_list.find? (fun t => t.id == 0) = some t1 ∧
        t1.state = TaskState.Ready ∧ t1.pend = TaskPendReason.NotPending ∧
        t1.priority = KT0.priority) ∧
      k1.curr_task_id = some 0 ∧
      ((∀ u ∈ k1.task_list, u.is_runnable = true → u.id ≠ 0 →
          KT0.priority < u.priority) →
        b = false ∧ k1.next_task_id = none) :=
  C9_sleep_zero KS 0 KT0 rfl rfl (by decide)

theorem scheduler_no_running {k : Kernel}
    (hnr : ∀ t ∈ k.task_list, t.state ≠ TaskState.Running) :
    ∀ t ∈ (scheduler k).1.task_list, t.state ≠ TaskState.Running := by
  cases hr : k.is_running
  · rw [scheduler_not_running hr]
    exact hnr
  · rw [scheduler_running hr]
    intro t ht hrun
    simp only [update_pending_tasks, List.mem_map] at ht
    obtain ⟨u, hu, rfl⟩ := ht
    exact hnr u hu (sweep_task_running hrun)

/-- No API call other than `start` and `handle_context_switch` can make
any task Running. -/
theorem no_running_preserved {k k2 : Kernel} {op : Op}
    (hnr : ∀ t ∈ k.task_list, t.state ≠ TaskState.Running)
    (hop : match op with
           | Op.start => False
           | Op.handle_context_switch _ => False
           | _ => True)
    (he : exec k op = some k2) :
    ∀ t ∈ k2.task_list, t.state ≠ TaskState.Running := by
  cases op with
  | start => exact hop.elim
  | handle_context_switch usp => exact hop.elim
  | create id p sp =>
    simp only [exec, Option.map_eq_some'] at he
    obtain ⟨a, ha, hk⟩ := he
    subst hk
    obtain ⟨hdup, hcap, hpair⟩ := create_char ha
    have h2 := congrArg Prod.fst hpair
    rw [h2]
    apply scheduler_no_running
    intro t ht hrun
    rcases List.mem_append.mp ht with ht | ht
    · exact hnr t ht hrun
    · rw [List.mem_singleton] at ht
      subst ht
      exact absurd hrun (by simp)
  | delete id =>
    simp only [exec, Option.map_eq_some'] at he
    obtain ⟨a, ha, hk⟩ := he
    subst hk
    obtain ⟨curr_id, curr_idx, task_idx, hc, hidx, -, hpair⟩ := delete_char ha
    have h2 := congrArg Prod.fst hpair
    rw [h2]
    by_cases hci : curr_idx = task_idx
    · rw [if_pos hci]
      apply scheduler_no_running
      intro t ht hrun
      exact hnr t ((k.task_list.eraseIdx_sublist task_idx).subset ht) hrun
    · rw [if_neg hci]
      apply scheduler_no_running
      intro t ht hrun
      exact hnr t ((k.task_list.eraseIdx_sublist task_idx).subset ht) hrun
  | sleep d =>
    simp only [exec, Option.map_eq_some'] at he
    obtain ⟨a, ha, hk⟩ := he
    subst hk
    cases hc : k.curr_task_id with
    | none => simp [sleep, hc] at ha
    | some c =>
      cases hm : modify_task k.task_list c
          (fun t => { t with
                        state := TaskState.Pending
                        pend := TaskPendReason.Sleep (k.tick_counter + d) }) with
      | none => simp [sleep, hc, hm] at ha
      | some l =>
        have h2 : a.1 = (scheduler { k with task_list := l }).1 := by
          simp [sleep, hc, hm] at ha
          rw [← ha, hc]
        rw [h2]
        apply scheduler_no_running
        intro t ht hrun
        rcases modify_task_mem hm t ht with ht | ⟨u, hu, hid, rfl⟩
        · exact hnr t ht hrun
        · exact absurd hrun (by simp)
  | suspend id =>
    simp only [exec, Option.map_eq_some'] at he
    obtain ⟨a, ha, hk⟩ := he
    subst hk
    cases id with
    | some i =>
      cases hm : modify_task k.task_list i
          (fun t => { t with
                        state := TaskState.Pending
                        pend := TaskPendReason.Suspended }) with
      | none => simp [suspend, hm] at ha
      | some l =>
        have h2 : a.1 = (scheduler { k with task_list := l }).1 := by
          simp [suspend, hm] at ha
          rw [← ha]
        rw [h2]
        apply scheduler_no_running
        intro t ht hrun
        rcases modify_task_mem hm t ht with ht | ⟨u, hu, hid, rfl⟩
        · exact hnr t ht hrun
        · exact absurd hrun (by simp)
    | none =>
      cases hc : k.curr_task_id with
      | none => simp [suspend, hc] at ha
      | some c =>
        cases hm : modify_task k.task_list c
            (fun t => { t with
                          state := TaskState.Pending
                          pend := TaskPendReason.Suspended }) with
        | none => simp [suspend, hc, hm] at ha
        | some l =>
          have h2 : a.1 = (scheduler { k with task_list := l }).1 := by
            simp [suspend, hc, hm] at ha
            rw [← ha, hc]
          rw [h2]
          apply scheduler_no_running
          intro t ht hrun
          rcases modify_task_mem hm t ht with ht | ⟨u, hu, hid, rfl⟩
          · exact hnr t ht hrun
          · exact absurd hrun (by simp)
  | resume id =>
    simp only [exec, Option.map_eq_some'] at he
    obtain ⟨a, ha, hk⟩ := he
    subst hk
    cases hm : modify_task k.task_list id
        (fun t => { t with
                      state := TaskState.Ready
                      pend := TaskPendReason.NotPending }) with
    | none => simp [resume, hm] at ha
    | some l =>
      have h2 : a.1 = (scheduler { k with task_list := l }).1 := by
        simp [resume, hm] at ha
        rw [← ha]
      rw [h2]
      apply scheduler_no_running
      intro t ht hrun
      rcases modify_task_mem hm t ht with ht | ⟨u, hu, hid, rfl⟩
      · exact hnr t ht hrun
      · exact absurd hrun (by simp)
  | tick_update e =>
    simp only [exec] at he
    injection he with he
    subst he
    exact scheduler_no_running hnr

/-- `KS` after `create(2, 50, 300)`: a Ready task of higher priority
(smaller number) than the Running current task 0, with a switch to task 2
already requested. -/
def K10a : Kernel :=
  { is_running := true, tick_counter := 0, max_num_tasks := 3,
    task_list := [
      { id := 0, priority := 99, stack_ptr := 100, state := TaskState.Running,
        pend := TaskPendReason.NotPending },
      { id := 1, priority := 100, stack_ptr := 200, state := TaskState.Ready,
        pend := TaskPendReason.NotPending },
      { id := 2, priority := 50, stack_ptr := 300, state := TaskState.Ready,
        pend := TaskPendReason.NotPending }],
    curr_task_id := some 0, next_task_id := some 2 }

/-- `K10a` after `resume(0)`. -/
def K10b : Kernel :=
  { is_running := true, tick_counter := 0, max_num_tasks := 3,
    task_list := [
      { id := 0, priority := 99, stack_ptr := 100, state := TaskState.Ready,
        pend := TaskPendReason.NotPending },
      { id := 1, priority := 100, stack_ptr := 200, state := TaskState.Ready,
        pend := TaskPendReason.NotPending },
      { id := 2, priority := 50, stack_ptr := 300, state := TaskState.Ready,
        pend := TaskPendReason.NotPending }],
    curr_task_id := some 0, next_task_id := some 2 }

/-- C10 counterexample: in the running kernel `K10a` the id 0 is the
currently running task, yet `resume(0)` returns true (a switch to the
higher-priority Ready task 2 is requested), not false as claimed. -/
theorem C10_counterexample :
    create KS 2 50 300 = some (K10a, true) ∧
    K10a.is_running = true ∧
    K10a.curr_task_id = some 0 ∧
    (∃ t ∈ K10a.task_list, t.id = 0 ∧ t.state = TaskState.Running) ∧
    resume K10a 0 = some (K10b, true) := by decide

/-- C10 amended: on a running kernel with pairwise distinct ids whose
only Running task is the current task `c`, `resume(c)` demotes it to
Ready with pend NotPending, leaves `curr_task_id` unchanged, and
afterwards no task is Running (and any further call other than `start`
or `handle_context_switch` keeps it that way); but `resume(c)` returns
false only when no switch is requested, which holds precisely when
`next_task_id` ends up none — in particular it does return false whenever
the current task's priority is strictly smallest among runnable tasks. -/
theorem C10_resume_current (k : Kernel) (c : Nat) (tc : Task)
    (hr : k.is_running = true) (hc : k.curr_task_id = some c)
    (hf : k.task_list.find? (fun t => t.id == c) = some tc)
    (hst : tc.state = TaskState.Running)
    (hids : ids_distinct k.task_list)
    (honly : ∀ t ∈ k.task_list, t.state = TaskState.Running → t.id = c) :
    ∃ k1 b, resume k c = some (k1, b) ∧
      k1.curr_task_id = some c ∧
      (∃ t1, k1.task_list.find? (fun t => t.id == c) = some t1 ∧
        t1.state = TaskState.Ready ∧ t1.pend = TaskPendReason.NotPending) ∧
      (∀ t ∈ k1.task_list, t.state ≠ TaskState.Running) ∧
      (b = true ↔ (k1.next_task_id).isSome = true) ∧
      ((∀ u ∈ k1.task_list, u.is_runnable = true → u.id ≠ c →
          tc.priority < u.priority) →
        b = false ∧ k1.next_task_id = none) ∧
      (∀ op k2, (match op with
          | Op.start => False
          | Op.handle_context_switch _ => False
          | _ => True) → exec k1 op = some k2 →
        ∀ t ∈ k2.task_list, t.state ≠ TaskState.Running) := by
  have htc : tc.id = c := by
    have := List.find?_some hf
    simpa using this
  have hex : ∃ t ∈ k.task_list, t.id = c :=
    ⟨tc, List.mem_of_find?_eq_some hf, htc⟩
  obtain ⟨l, hm⟩ := modify_task_isSome
    (fun t => { t with
                  state := TaskState.Ready
                  pend := TaskPendReason.NotPending }) hex
  obtain ⟨t0, h01, h02⟩ := find?_id_modify hm (fun t => rfl)
  rw [hf] at h01
  injection h01 with h01
  subst h01
  have hs : resume k c = some (scheduler { k with task_list := l }) := by
    simp only [resume, hm]
  have hrmid : ({ k with task_list := l } : Kernel).is_running = true := hr
  have hnol : ∀ t ∈ l, t.state ≠ TaskState.Running := by
    obtain ⟨A, tcs, B, hsplit, hidc, hA, rfl⟩ := modify_task_split hm
    intro t ht hrun2
    rcases List.mem_append.mp ht with ht | ht
    · exact hA t ht (honly t (by rw [hsplit]; exact List.mem_append_left _ ht) hrun2)
    · rcases List.mem_cons.mp ht with rfl | ht
      · exact absurd hrun2 (by simp)
      · have h3 := honly t
          (by rw [hsplit]; exact List.mem_append_right _ (List.mem_cons_of_mem _ ht)) hrun2
        have h4 := ids_distinct_middle (by rw [← hsplit]; exact hids) t ht
        rw [hidc] at h4
        exact h4 h3
  have hno1 : ∀ t ∈ (scheduler { k with task_list := l }).1.task_list,
      t.state ≠ TaskState.Running := scheduler_no_running hnol
  have hsw : sweep_task k.tick_counter ({ tc with state := TaskState.Ready, pend := TaskPendReason.NotPending } : Task) = { tc with state := TaskState.Ready, pend := TaskPendReason.NotPending } :=
    sweep_task_not_pending rfl
  have hfind1 : (l.map (sweep_task k.tick_counter)).find? (fun t => t.id == c) = some { tc with state := TaskState.Ready, pend := TaskPendReason.NotPending } := by
    rw [find?_id_map (sweep_task_id k.tick_counter) c l, h02, Option.map_some', hsw]
  refine ⟨(scheduler { k with task_list := l }).1,
    (scheduler { k with task_list := l }).2, by rw [hs], ?_, ?_, hno1, ?_, ?_, ?_⟩
  · rw [scheduler_running hrmid]
    exact hc
  · rw [scheduler_running hrmid]
    exact ⟨{ tc with state := TaskState.Ready, pend := TaskPendReason.NotPending }, hfind1, rfl, rfl⟩
  · rw [scheduler_running hrmid]
  · intro hmin
    rw [scheduler_running hrmid] at hmin ⊢
    have hc2 : (update_pending_tasks { k with task_list := l }).curr_task_id = some c := hc
    have hmem2 : ({ tc with state := TaskState.Ready, pend := TaskPendReason.NotPending } : Task) ∈ (update_pending_tasks { k with task_list := l }).task_list :=
      List.mem_of_find?_eq_some hfind1
    have hsel : select_next (update_pending_tasks { k with task_list := l }) = none :=
      select_of_strict_min hc2 hmem2 htc (by simp [Task.is_runnable])
        (fun u hu h1 h2 => hmin u hu h1 h2)
    refine ⟨?_, ?_⟩
    · show (select_next (update_pending_tasks { k with task_list := l })).isSome = false
      rw [hsel]
      rfl
    · show select_next (update_pending_tasks { k with task_list := l }) = none
      exact hsel
  · intro op k2 hop he
    exact no_running_preserved hno1 hop he

/-- Witness for the amended C10 at `KS`, where the current task has the
smallest priority, so `resume(0)` indeed answers false. -/
theorem C10_resume_current_witness :
    ∃ k1 b, resume KS 0 = some (k1, b) ∧
      k1.curr_task_id = some 0 ∧
      (∃ t1, k1.task_list.find? (fun t => t.id == 0) = some t1 ∧
        t1.state = TaskState.Ready ∧ t1.pend = TaskPendReason.NotPending) ∧
      (∀ t ∈ k1.task_list, t.state ≠ TaskState.Running) ∧
      (b = true ↔ (k1.next_task_id).isSome = true) ∧
      ((∀ u ∈ k1.task_list, u.is_runnable = true → u.id ≠ 0 →
          KT0.priority < u.priority) →
        b = false ∧ k1.next_task_id = none) ∧
      (∀ op k2, (match op with
          | Op.start => False
          | Op.handle_context_switch _ => False
          | _ => True) → exec k1 op = some k2 →
        ∀ t ∈ k2.task_list, t.state ≠ TaskState.Running) :=
  C10_resume_current KS 0 KT0 rfl rfl (by decide) rfl
    (by unfold ids_distinct; decide) (by decide)

/-! ### Wake monotonicity (C8) -/

theorem exec_tick_mono {k k2 : Kernel} {op : Op} (he : exec k op = some k2) :
    k.tick_counter ≤ k2.tick_counter := by
  cases op with
  | create id p sp =>
    simp only [exec, Option.map_eq_some'] at he
    obtain ⟨a, ha, hk⟩ := he
    subst hk
    obtain ⟨-, -, hpair⟩ := create_char ha
    have h2 := congrArg Prod.fst hpair
    rw [h2, (scheduler_fields _).2.1]
  | delete id =>
    simp only [exec, Option.map_eq_some'] at he
    obtain ⟨a, ha, hk⟩ := he
    subst hk
    obtain ⟨curr_id, curr_idx, task_idx, -, -, -, hpair⟩ := delete_char ha
    have h2 := congrArg Prod.fst hpair
    rw [h2, (scheduler_fields _).2.1]
    by_cases hci : curr_idx = task_idx
    · rw [if_pos hci]
    · rw [if_neg hci]
  | start =>
    simp only [exec, Option.map_eq_some'] at he
    obtain ⟨a, ha, hk⟩ := he
    subst hk
    cases hrun : k.is_running with
    | true => simp [start, hrun] at ha
    | false =>
      cases hv : (scheduler { k with is_running := true }).2 with
      | false => simp [start, hrun, hv] at ha
      | true =>
        have ha2 : handle_context_switch (scheduler { k with is_running := true }).1 none
            = some a := by
          simpa [start, hrun, hv] using ha
        obtain ⟨l1, n, l2, nt, -, -, -, -, hk2, -⟩ := hcs_char ha2
        rw [hk2]
        show k.tick_counter ≤ (scheduler { k with is_running := true }).1.tick_counter
        rw [(scheduler_fields _).2.1]
  | sleep d =>
    simp only [exec, Option.map_eq_some'] at he
    obtain ⟨a, ha, hk⟩ := he
    subst hk
    cases hc : k.curr_task_id with
    | none => simp [sleep, hc] at ha
    | some c =>
      cases hm : modify_task k.task_list c
          (fun t => { t with
                        state := TaskState.Pending
                        pend := TaskPendReason.Sleep (k.tick_counter + d) }) with
      | none => simp [sleep, hc, hm] at ha
      | some l =>
        have h2 : a.1 = (scheduler { k with task_list := l }).1 := by
          simp [sleep, hc, hm] at ha
          rw [← ha, hc]
        rw [h2, (scheduler_fields _).2.1]
  | suspend id =>
    simp only [exec, Option.map_eq_some'] at he
    obtain ⟨a, ha, hk⟩ := he
    subst hk
    cases id with
    | some i =>
      cases hm : modify_task k.task_list i
          (fun t => { t with
                        state := TaskState.Pending
                        pend := TaskPendReason.Suspended }) with
      | none => simp [suspend, hm] at ha
      | some l =>
        have h2 : a.1 = (scheduler { k with task_list := l }).1 := by
          simp [suspend, hm] at ha
          rw [← ha]
        rw [h2, (scheduler_fields _).2.1]
    | none =>
      cases hc : k.curr_task_id with
      | none => simp [suspend, hc] at ha
      | some c =>
        cases hm : modify_task k.task_list c
            (fun t => { t with
                          state := TaskState.Pending
                          pend := TaskPendReason.Suspended }) with
        | none => simp [suspend, hc, hm] at ha
        | some l =>
          have h2 : a.1 = (scheduler { k with task_list := l }).1 := by
            simp [suspend, hc, hm] at ha
            rw [← ha, hc]
          rw [h2, (scheduler_fields _).2.1]
  | resume id =>
    simp only [exec, Option.map_eq_some'] at he
    obtain ⟨a, ha, hk⟩ := he
    subst hk
    cases hm : modify_task k.task_list id
        (fun t => { t with
                      state := TaskState.Ready
                      pend := TaskPendReason.NotPending }) with
    | none => simp [resume, hm] at ha
    | some l =>
      have h2 : a.1 = (scheduler { k with task_list := l }).1 := by
        simp [resume, hm] at ha
        rw [← ha]
      rw [h2, (scheduler_fields _).2.1]
  | tick_update e =>
    simp only [exec] at he
    injection he with he
    subst he
    show k.tick_counter ≤ (scheduler { k with tick_counter := k.tick_counter + e }).1.tick_counter
    rw [(scheduler_fields _).2.1]
    exact Nat.le_add_right _ _
  | handle_context_switch usp =>
    simp only [exec, Option.map_eq_some'] at he
    obtain ⟨a, ha, hk⟩ := he
    subst hk
    obtain ⟨l1, n, l2, nt, -, -, -, -, hk2, -⟩ := hcs_char ha
    rw [hk2]

/-- Calls that can re-ready a sleeping task `c` or re-create its id:
`resume(c)`, `create(c, ..)`, and a further `sleep` issued while `c` is
still the current task.  All other calls are allowed. -/
def avoids (c : Nat) (k : Kernel) : Op → Prop
  | Op.resume i => i ≠ c
  | Op.create i _ _ => i ≠ c
  | Op.sleep _ => k.curr_task_id ≠ some c
  | _ => True

/-- Non-faulting call sequences from `k0` avoiding the calls that would
re-ready task `c`. -/
inductive ReachAvoid (c : Nat) (k0 : Kernel) : Kernel → Prop
  | refl : ReachAvoid c k0 k0
  | step {k k2 : Kernel} (op : Op) : ReachAvoid c k0 k → avoids c k op →
      exec k op = some k2 → ReachAvoid c k0 k2

/-- Every task with id `c` is Pending, asleep until `w` or suspended. -/
def asleep_pend (c w : Nat) (k : Kernel) : Prop :=
  ∀ t ∈ k.task_list, t.id = c → t.state = TaskState.Pending ∧
    (t.pend = TaskPendReason.Sleep w ∨ t.pend = TaskPendReason.Suspended)

theorem sweep_fix_asleep {w tick : Nat} {t : Task} (hw : tick < w)
    (h : t.pend = TaskPendReason.Sleep w ∨ t.pend = TaskPendReason.Suspended) :
    sweep_task tick t = t := by
  rcases h with h | h
  · exact sweep_task_asleep h hw
  · exact sweep_task_suspended h

theorem asleep_pend_scheduler {c w : Nat} {k : Kernel}
    (h : asleep_pend c w k) (hw : k.tick_counter < w) :
    asleep_pend c w (scheduler k).1 := by
  cases hr : k.is_running
  · rw [scheduler_not_running hr]
    exact h
  · rw [scheduler_running hr]
    intro t ht hid
    simp only [update_pending_tasks, List.mem_map] at ht
    obtain ⟨u, hu, rfl⟩ := ht
    rw [sweep_task_id] at hid
    obtain ⟨h1, h2⟩ := h u hu hid
    rw [sweep_fix_asleep hw h2]
    exact ⟨h1, h2⟩

theorem scheduler_next_avoid {c w : Nat} {k : Kernel}
    (h : asleep_pend c w k) (hw : k.tick_counter < w) (hr : k.is_running = true) :
    (scheduler k).1.next_task_id ≠ some c := by
  rw [scheduler_running hr]
  show select_next (update_pending_tasks k) ≠ some c
  intro heq
  obtain ⟨hf, -⟩ := select_next_eq_some heq
  obtain ⟨t, ht, hid, hrun⟩ := find_highest_mem hf
  simp only [update_pending_tasks, List.mem_map] at ht
  obtain ⟨u, hu, rfl⟩ := ht
  rw [sweep_task_id] at hid
  obtain ⟨h1, h2⟩ := h u hu hid
  rw [sweep_fix_asleep hw h2] at hrun
  rw [Task.is_runnable, h1] at hrun
  simp at hrun

theorem asleep_sched_step {c w : Nat} {mid : Kernel}
    (hp : asleep_pend c w mid) (hnx : mid.next_task_id ≠ some c)
    (hw : mid.tick_counter < w) :
    asleep_pend c w (scheduler mid).1 ∧ (scheduler mid).1.next_task_id ≠ some c := by
  cases hr : mid.is_running
  · rw [scheduler_not_running hr]
    exact ⟨hp, hnx⟩
  · exact ⟨asleep_pend_scheduler hp hw, scheduler_next_avoid hp hw hr⟩

theorem asleep_hcs {c w : Nat} {k : Kernel} {usp : Option Nat} {k2 : Kernel} {r : Nat}
    (hp : asleep_pend c w k) (hnx : k.next_task_id ≠ some c)
    (he : handle_context_switch k usp = some (k2, r)) :
    asleep_pend c w k2 ∧ k2.next_task_id ≠ some c := by
  obtain ⟨l1, n, l2, nt, h1, hn, hm2, hfind, rfl, -⟩ := hcs_char he
  have hnc : n ≠ c := by
    intro hnc
    rw [hn, hnc] at hnx
    exact hnx rfl
  have hp1 : ∀ t ∈ l1, t.id = c → t.state = TaskState.Pending ∧
      (t.pend = TaskPendReason.Sleep w ∨ t.pend = TaskPendReason.Suspended) := by
    cases hc : k.curr_task_id with
    | none =>
      rw [hc] at h1
      have h1' : l1 = k.task_list := h1
      subst h1'
      exact hp
    | some cc =>
      rw [hc] at h1
      have h1' : modify_task k.task_list cc (save_outgoing usp) = some l1 := h1
      intro t ht hid
      rcases modify_task_mem h1' t ht with ht | ⟨u, hu, -, rfl⟩
      · exact hp t ht hid
      · rw [save_outgoing_id] at hid
        obtain ⟨hu1, hu2⟩ := hp u hu hid
        rw [save_outgoing_pend]
        rw [save_outgoing_state, hu1]
        exact ⟨by simp, hu2⟩
  refine ⟨?_, by simp⟩
  intro t ht hid
  rcases modify_task_mem hm2 t ht with ht | ⟨u, hu, hid2, rfl⟩
  · exact hp1 t ht hid
  · exact absurd (show u.id = c from hid) (by rw [hid2]; exact hnc)

theorem asleep_pend_modify {c w : Nat} {l : List Task} {tid : Nat} {f : Task → Task}
    {l2 : List Task} (hm : modify_task l tid f = some l2)
    (hp : ∀ t ∈ l, t.id = c → t.state = TaskState.Pending ∧
      (t.pend = TaskPendReason.Sleep w ∨ t.pend = TaskPendReason.Suspended))
    (hf : ∀ u ∈ l, u.id = tid → (f u).id = c → (f u).state = TaskState.Pending ∧
      ((f u).pend = TaskPendReason.Sleep w ∨ (f u).pend = TaskPendReason.Suspended)) :
    ∀ t ∈ l2, t.id = c → t.state = TaskState.Pending ∧
      (t.pend = TaskPendReason.Sleep w ∨ t.pend = TaskPendReason.Suspended) := by
  intro t ht hid
  rcases modify_task_mem hm t ht with ht | ⟨u, hu, hutid, rfl⟩
  · exact hp t ht hid
  · exact hf u hu hutid hid

theorem asleep_step {c w : Nat} {k : Kernel} {op : Op} {k2 : Kernel}
    (hp : asleep_pend c w k) (hnx : k.next_task_id ≠ some c)
    (hav : avoids c k op) (he : exec k op = some k2) (hw : k2.tick_counter < w) :
    asleep_pend c w k2 ∧ k2.next_task_id ≠ some c := by
  cases op with
  | create i p sp =>
    simp only [exec, Option.map_eq_some'] at he
    obtain ⟨a, ha, hk⟩ := he
    subst hk
    obtain ⟨-, -, hpair⟩ := create_char ha
    have h2 := congrArg Prod.fst hpair
    rw [h2] at hw ⊢
    have hw2 : ({ k with task_list := k.task_list ++ [{ id := i, priority := p, stack_ptr := sp, state := TaskState.Ready, pend := TaskPendReason.NotPending }] } : Kernel).tick_counter < w := by
      rw [(scheduler_fields _).2.1] at hw
      exact hw
    refine asleep_sched_step ?_ ?_ hw2
    · intro t ht hid
      rcases List.mem_append.mp ht with ht | ht
      · exact hp t ht hid
      · rw [List.mem_singleton] at ht
        subst ht
        exact absurd hid hav
    · exact hnx
  | delete id =>
    simp only [exec, Option.map_eq_some'] at he
    obtain ⟨a, ha, hk⟩ := he
    subst hk
    obtain ⟨curr_id, curr_idx, task_idx, -, -, -, hpair⟩ := delete_char ha
    have h2 := congrArg Prod.fst hpair
    rw [h2] at hw ⊢
    have hsub : ∀ t ∈ k.task_list.eraseIdx task_idx, t.id = c →
        t.state = TaskState.Pending ∧
        (t.pend = TaskPendReason.Sleep w ∨ t.pend = TaskPendReason.Suspended) :=
      fun t ht hid => hp t ((k.task_list.eraseIdx_sublist task_idx).subset ht) hid
    by_cases hci : curr_idx = task_idx
    · rw [if_pos hci] at hw ⊢
      have hw2 : ({ k with task_list := k.task_list.eraseIdx task_idx, curr_task_id := none } : Kernel).tick_counter < w := by
        rw [(scheduler_fields _).2.1] at hw
        exact hw
      refine asleep_sched_step ?_ ?_ hw2
      · exact hsub
      · exact hnx
    · rw [if_neg hci] at hw ⊢
      have hw2 : ({ k with task_list := k.task_list.eraseIdx task_idx } : Kernel).tick_counter < w := by
        rw [(scheduler_fields _).2.1] at hw
        exact hw
      refine asleep_sched_step ?_ ?_ hw2
      · exact hsub
      · exact hnx
  | start =>
    simp only [exec, Option.map_eq_some'] at he
    obtain ⟨a, ha, hk⟩ := he
    subst hk
    cases hrun : k.is_running with
    | true => simp [start, hrun] at ha
    | false =>
      cases hv : (scheduler { k with is_running := true }).2 with
      | false => simp [start, hrun, hv] at ha
      | true =>
        have ha2 : handle_context_switch (scheduler { k with is_running := true }).1 none
            = some a := by
          simpa [start, hrun, hv] using ha
        have hwmid : ({ k with is_running := true } : Kernel).tick_counter < w := by
          obtain ⟨l1, n, l2, nt, -, -, -, -, hk2, -⟩ := hcs_char ha2
          rw [hk2] at hw
          have hw2 : (scheduler { k with is_running := true }).1.tick_counter < w := hw
          rw [(scheduler_fields _).2.1] at hw2
          exact hw2
        obtain ⟨hp1, hnx1⟩ := asleep_sched_step
          (show asleep_pend c w ({ k with is_running := true } : Kernel) from hp)
          (show ({ k with is_running := true } : Kernel).next_task_id ≠ some c from hnx)
          hwmid
        exact asleep_hcs hp1 hnx1 ha2
  | sleep d =>
    simp only [exec, Option.map_eq_some'] at he
    obtain ⟨a, ha, hk⟩ := he
    subst hk
    cases hc : k.curr_task_id with
    | none => simp [sleep, hc] at ha
    | some cc =>
      have hcc : cc ≠ c := by
        intro hcc
        have hav2 : k.curr_task_id ≠ some c := hav
        rw [hc, hcc] at hav2
        exact hav2 rfl
      cases hm : modify_task k.task_list cc
          (fun t => { t with
                        state := TaskState.Pending
                        pend := TaskPendReason.Sleep (k.tick_counter + d) }) with
      | none => simp [sleep, hc, hm] at ha
      | some l =>
        have h2 : a.1 = (scheduler { k with task_list := l }).1 := by
          simp [sleep, hc, hm] at ha
          rw [← ha, hc]
        rw [h2] at hw ⊢
        have hw2 : ({ k with task_list := l } : Kernel).tick_counter < w := by
          rw [(scheduler_fields _).2.1] at hw
          exact hw
        refine asleep_sched_step ?_ ?_ hw2
        · refine asleep_pend_modify hm hp ?_
          intro u hu hutid hid
          have h3 : cc = c := by
            rw [← hutid]
            exact hid
          exact absurd h3 hcc
        · exact hnx
  | suspend id =>
    simp only [exec, Option.map_eq_some'] at he
    obtain ⟨a, ha, hk⟩ := he
    subst hk
    cases id with
    | some i =>
      cases hm : modify_task k.task_list i
          (fun t => { t with
                        state := TaskState.Pending
                        pend := TaskPendReason.Suspended }) with
      | none => simp [suspend, hm] at ha
      | some l =>
        have h2 : a.1 = (scheduler { k with task_list := l }).1 := by
          simp [suspend, hm] at ha
          rw [← ha]
        rw [h2] at hw ⊢
        have hw2 : ({ k with task_list := l } : Kernel).tick_counter < w := by
          rw [(scheduler_fields _).2.1] at hw
          exact hw
        refine asleep_sched_step ?_ ?_ hw2
        · refine asleep_pend_modify hm hp ?_
          intro u hu hutid hid
          exact ⟨rfl, Or.inr rfl⟩
        · exact hnx
    | none =>
      cases hc : k.curr_task_id with
      | none => simp [suspend, hc] at ha
      | some cc =>
        cases hm : modify_task k.task_list cc
            (fun t => { t with
                          state := TaskState.Pending
                          pend := TaskPendReason.Suspended }) with
        | none => simp [suspend, hc, hm] at ha
        | some l =>
          have h2 : a.1 = (scheduler { k with task_list := l }).1 := by
            simp [suspend, hc, hm] at ha
            rw [← ha, hc]
          rw [h2] at hw ⊢
          have hw2 : ({ k with task_list := l } : Kernel).tick_counter < w := by
            rw [(scheduler_fields _).2.1] at hw
            exact hw
          refine asleep_sched_step ?_ ?_ hw2
          · refine asleep_pend_modify hm hp ?_
            intro u hu hutid hid
            exact ⟨rfl, Or.inr rfl⟩
          · exact hnx
  | resume i =>
    simp only [exec, Option.map_eq_some'] at he
    obtain ⟨a, ha, hk⟩ := he
    subst hk
    cases hm : modify_task k.task_list i
        (fun t => { t with
                      state := TaskState.Ready
                      pend := TaskPendReason.NotPending }) with
    | none => simp [resume, hm] at ha
    | some l =>
      have h2 : a.1 = (scheduler { k with task_list := l }).1 := by
        simp [resume, hm] at ha
        rw [← ha]
      rw [h2] at hw ⊢
      have hw2 : ({ k with task_list := l } : Kernel).tick_counter < w := by
        rw [(scheduler_fields _).2.1] at hw
        exact hw
      refine asleep_sched_step ?_ ?_ hw2
      · refine asleep_pend_modify hm hp ?_
        intro u hu hutid hid
        have h3 : i = c := by
          rw [← hutid]
          exact hid
        exact absurd h3 hav
      · exact hnx
  | tick_update e =>
    simp only [exec] at he
    injection he with he
    subst he
    show asleep_pend c w (scheduler { k with tick_counter := k.tick_counter + e }).1 ∧
      (scheduler { k with tick_counter := k.tick_counter + e }).1.next_task_id ≠ some c
    have hw2 : ({ k with tick_counter := k.tick_counter + e } : Kernel).tick_counter < w := by
      have hw3 : (scheduler { k with tick_counter := k.tick_counter + e }).1.tick_counter < w := hw
      rw [(scheduler_fields _).2.1] at hw3
      exact hw3
    refine asleep_sched_step ?_ ?_ hw2
    · exact hp
    · exact hnx
  | handle_context_switch usp =>
    simp only [exec, Option.map_eq_some'] at he
    obtain ⟨a, ha, hk⟩ := he
    subst hk
    exact asleep_hcs hp hnx ha

/-- Right after the current task `c` of a running kernel calls
`sleep(d)` (with the wake tick still in the future), every task with id
`c` is Pending asleep until `tick + d`, and no switch to `c` is
requested. -/
theorem sleep_establishes {k : Kernel} {c d : Nat} {k1 : Kernel} {b : Bool}
    (hr : k.is_running = true) (hc : k.curr_task_id = some c)
    (hids : ids_distinct k.task_list)
    (hs : sleep k d = some (k1, b)) (hw : k1.tick_counter < k.tick_counter + d) :
    asleep_pend c (k.tick_counter + d) k1 ∧ k1.next_task_id ≠ some c := by
  cases hm : modify_task k.task_list c
      (fun t => { t with
                    state := TaskState.Pending
                    pend := TaskPendReason.Sleep (k.tick_counter + d) }) with
  | none => simp [sleep, hc, hm] at hs
  | some l =>
    have hs2 : k1 = (scheduler { k with task_list := l }).1 := by
      rw [hc]
      simp only [sleep, hc, hm] at hs
      injection hs with hs
      exact (congrArg Prod.fst hs).symm
    rw [hs2] at hw ⊢
    have hrmid : ({ k with task_list := l } : Kernel).is_running = true := hr
    have hw2 : ({ k with task_list := l } : Kernel).tick_counter < k.tick_counter + d := by
      rw [(scheduler_fields _).2.1] at hw
      exact hw
    have hpend : asleep_pend c (k.tick_counter + d) ({ k with task_list := l } : Kernel) := by
      obtain ⟨A, tcs, B, hsplit, hidc, hA, rfl⟩ := modify_task_split hm
      intro t ht hid
      rcases List.mem_append.mp ht with ht | ht
      · exact absurd hid (hA t ht)
      · rcases List.mem_cons.mp ht with rfl | ht
        · exact ⟨rfl, Or.inl rfl⟩
        · have h4 := ids_distinct_middle (by rw [← hsplit]; exact hids) t ht
          rw [hidc] at h4
          exact absurd hid h4
    exact ⟨asleep_pend_scheduler hpend hw2, scheduler_next_avoid hpend hw2 hrmid⟩

/-- C8 amended: if the current task `c` calls `sleep(d)` at tick `T` on
a running kernel with pairwise-distinct ids, then along every subsequent
non-faulting call sequence that does not resume `c`, re-create id `c`, or
issue a further `sleep` while `c` is still current, in every state with
`tick_counter < T + d` the scheduler has not selected task `c`: the task
(every task with id `c`) is still Pending and `next_task_id ≠ some c`
(so no context switch can install it as the current task). -/
theorem C8_sleep_not_selected (k : Kernel) (c d : Nat) (k1 : Kernel) (b : Bool)
    (k2 : Kernel)
    (hr : k.is_running = true) (hc : k.curr_task_id = some c)
    (hids : ids_distinct k.task_list)
    (hs : sleep k d = some (k1, b))
    (hra : ReachAvoid c k1 k2)
    (htick : k2.tick_counter < k.tick_counter + d) :
    k2.next_task_id ≠ some c ∧
      ∀ t ∈ k2.task_list, t.id = c → t.state = TaskState.Pending := by
  have main : ∀ kx, ReachAvoid c k1 kx → kx.tick_counter < k.tick_counter + d →
      asleep_pend c (k.tick_counter + d) kx ∧ kx.next_task_id ≠ some c := by
    intro kx hrx
    induction hrx with
    | refl =>
      intro hw
      exact sleep_establishes hr hc hids hs hw
    | step op hrx2 hav he ih =>
      intro hw
      have hw0 := Nat.lt_of_le_of_lt (exec_tick_mono he) hw
      obtain ⟨hp2, hnx2⟩ := ih hw0
      exact asleep_step hp2 hnx2 hav he hw
  obtain ⟨hp2, hnx2⟩ := main k2 hra htick
  exact ⟨hnx2, fun t ht hid => (hp2 t ht hid).1⟩

/-- `KS` after `sleep(5)`: task 0 Pending until tick 5, switch to 1
requested. -/
def K8a : Kernel :=
  { is_running := true, tick_counter := 0, max_num_tasks := 3,
    task_list := [
      { id := 0, priority := 99, stack_ptr := 100, state := TaskState.Pending,
        pend := TaskPendReason.Sleep 5 },
      { id := 1, priority := 100, stack_ptr := 200, state := TaskState.Ready,
        pend := TaskPendReason.NotPending }],
    curr_task_id := some 0, next_task_id := some 1 }

/-- `K8a` after the context switch to task 1. -/
def K8b : Kernel :=
  { is_running := true, tick_counter := 0, max_num_tasks := 3,
    task_list := [
      { id := 0, priority := 99, stack_ptr := 100, state := TaskState.Pending,
        pend := TaskPendReason.Sleep 5 },
      { id := 1, priority := 100, stack_ptr := 200, state := TaskState.Running,
        pend := TaskPendReason.NotPending }],
    curr_task_id := some 1, next_task_id := none }

/-- `K8b` after `resume(0)`: task 0 selected again although tick < 5. -/
def K8c : Kernel :=
  { is_running := true, tick_counter := 0, max_num_tasks := 3,
    task_list := [
      { id := 0, priority := 99, stack_ptr := 100, state := TaskState.Ready,
        pend := TaskPendReason.NotPending },
      { id := 1, priority := 100, stack_ptr := 200, state := TaskState.Running,
        pend := TaskPendReason.NotPending }],
    curr_task_id := some 1, next_task_id := some 0 }

/-- `K8b` after `tick_update(3)`: task 0 still asleep, not selected. -/
def K8d : Kernel :=
  { is_running := true, tick_counter := 3, max_num_tasks := 3,
    task_list := [
      { id := 0, priority := 99, stack_ptr := 100, state := TaskState.Pending,
        pend := TaskPendReason.Sleep 5 },
      { id := 1, priority := 100, stack_ptr := 200, state := TaskState.Running,
        pend := TaskPendReason.NotPending }],
    curr_task_id := some 1, next_task_id := none }

/-- C8 counterexample: task 0 calls `sleep(5)` at tick T = 0, the switch
to task 1 is committed, and then `resume(0)` makes the scheduler select
task 0 (`next_task_id = some 0`) while `tick_counter < T + 5` — an
intervening `resume` cancels the sleep, so the claim fails for arbitrary
call sequences. -/
theorem C8_counterexample :
    KS.tick_counter = 0 ∧ KS.curr_task_id = some 0 ∧
    sleep KS 5 = some (K8a, true) ∧
    handle_context_switch K8a none = some (K8b, 200) ∧
    resume K8b 0 = some (K8c, true) ∧
    K8c.tick_counter < 0 + 5 ∧ K8c.next_task_id = some 0 := by decide

/-- Witness for the amended C8: after `sleep(5)`, a context switch and
`tick_update(3)` (both allowed calls), task 0 is still Pending and not
selected at tick 3 < 5. -/
theorem C8_sleep_not_selected_witness :
    K8d.next_task_id ≠ some 0 ∧
      ∀ t ∈ K8d.task_list, t.id = 0 → t.state = TaskState.Pending :=
  C8_sleep_not_selected KS 0 5 K8a true K8d rfl rfl
    (by unfold ids_distinct; decide) (by decide)
    (ReachAvoid.step (Op.tick_update 3)
      ((ReachAvoid.step (Op.handle_context_switch none) ReachAvoid.refl
        (by trivial) (by decide)) : ReachAvoid 0 K8a K8b)
      (by trivial) (by decide))
    (by decide)

end RuCOS
